import Mathlib

/-!
Verification development for the HBMusic backend service (src/index.js).

The file shallowly embeds the core request pipeline of the service:
the retrying upstream client `fetchWithRetry`, the TuneHub source adapter
`tryGetSongFromSource`, the free fallback adapter `tryKuwoFallbackAPI`, the
fallback orchestrator `searchAndGetSongInfo`, the route handlers for `/` and
`/stream`, the search-descriptor template substitution, and the detail-link
builder `getDetailPageLink`.

Modelling conventions:
* JavaScript values flowing through the pipeline are modelled by the `Json`
  inductive; `undefined` (an absent property) is modelled by `Option Json`
  being `none`.
* HTTP response bodies are given as `Option Json`: the result of
  `JSON.parse` on the body text (`none` means the text was not valid JSON,
  so `res.json()` or `JSON.parse` raises).
* Thrown JavaScript errors are modelled by `Except Err` with `Err := String`
  carrying the error message (quota detection in the orchestrator inspects
  these messages, exactly as the JS does).
* The behaviour of the network is an explicit environment: one
  `Except Err Response` per `fetch` call, a `Nat`-indexed family of outcomes
  per `fetchWithRetry` call (one outcome per attempt).
* The orchestrator and the handlers additionally return a trace of the
  adapter invocations they perform, used to state the temporal claims.
-/

namespace HBMusic

/-- JavaScript error: we keep only the message, which is all the code under
verification inspects. -/
abbrev Err := String

mutual
/-- JSON/JavaScript values (numbers modelled as integers: the fields the code
inspects are status-like codes and identifiers).  Arrays and objects carry
their own list-like types so that every recursion over values is structural
and kernel-reducible. -/
inductive Json where
  | null : Json
  | bool : Bool → Json
  | num : Int → Json
  | str : String → Json
  | arr : JsonItems → Json
  | obj : JsonFields → Json

/-- The elements of a JSON array. -/
inductive JsonItems where
  | nil : JsonItems
  | cons : Json → JsonItems → JsonItems

/-- The key/value fields of a JSON object, in insertion order. -/
inductive JsonFields where
  | nil : JsonFields
  | cons : String → Json → JsonFields → JsonFields
end

/-- Build array items from a list literal. -/
def JsonItems.ofList : List Json → JsonItems
  | [] => .nil
  | x :: xs => .cons x (JsonItems.ofList xs)

/-- Build object fields from a list literal. -/
def JsonFields.ofList : List (String × Json) → JsonFields
  | [] => .nil
  | (k, v) :: xs => .cons k v (JsonFields.ofList xs)

/-- Array literal helper. -/
def Json.arrOf (l : List Json) : Json := .arr (JsonItems.ofList l)

/-- Object literal helper. -/
def Json.objOf (l : List (String × Json)) : Json := .obj (JsonFields.ofList l)

/-- Number of elements of an array. -/
def JsonItems.length : JsonItems → Nat
  | .nil => 0
  | .cons _ xs => xs.length + 1

/-- Element at an index, if present. -/
def JsonItems.get? : JsonItems → Nat → Option Json
  | .nil, _ => none
  | .cons x _, 0 => some x
  | .cons _ xs, n + 1 => xs.get? n

/-- The elements as a plain list. -/
def JsonItems.toList : JsonItems → List Json
  | .nil => []
  | .cons x xs => x :: xs.toList

/-- First field with the given key, if any. -/
def JsonFields.lookup : JsonFields → String → Option Json
  | .nil, _ => none
  | .cons k v xs, key => if k = key then some v else xs.lookup key

/-- The fields as a plain association list. -/
def JsonFields.toList : JsonFields → List (String × Json)
  | .nil => []
  | .cons k v xs => (k, v) :: xs.toList

/-- Character-list prefix test (plain, case-sensitive). -/
def listStarts : List Char → List Char → Bool
  | [], _ => true
  | _ :: _, [] => false
  | p :: ps, c :: cs => p == c && listStarts ps cs

/-- Character-list substring test. -/
def listContains (needle : List Char) : List Char → Bool
  | [] => listStarts needle []
  | s@(_ :: rest) => listStarts needle s || listContains needle rest

/-- JS `String.prototype.includes`. -/
def strIncludes (needle hay : String) : Bool :=
  listContains needle.data hay.data

/-- Strict equality `v === n` of a possibly-absent value against a number
literal (the only strict comparisons the code performs). -/
def isNumEq (v : Option Json) (n : Int) : Bool :=
  match v with
  | some (.num m) => m == n
  | _ => false

/-- JS truthiness of a value. -/
def jsTruthy : Json → Bool
  | .null => false
  | .bool b => b
  | .num n => n != 0
  | .str s => s != ""
  | .arr _ => true
  | .obj _ => true

/-- JS truthiness where `none` is `undefined`. -/
def jsTruthyOpt : Option Json → Bool
  | none => false
  | some v => jsTruthy v

/-- Property access `v.key` (undefined is `none`).  Named properties of
non-objects yield `undefined`; the special cases the code relies on
(`.length` of arrays/strings and numeric indexing) are modelled separately
by `jsLengthOpt` and `jsIndex`. -/
def jget : Json → String → Option Json
  | .obj fields, key => fields.lookup key
  | _, _ => none

/-- Property access through an `Option` (`v?.key`). -/
def jgetOpt (v : Option Json) (key : String) : Option Json :=
  v.bind (jget · key)

/-- Indexing `v[i]`: arrays by position, strings by character, objects by
the stringified key; anything else gives `undefined`. -/
def jsIndex : Json → Nat → Option Json
  | .arr l, i => l.get? i
  | .str s, i => (s.data.get? i).map (fun c => .str (String.mk [c]))
  | .obj fields, i => fields.lookup (toString i)
  | _, _ => none

/-- Indexing through an `Option` (`v?.[i]`). -/
def jsIndexOpt (v : Option Json) (i : Nat) : Option Json :=
  v.bind (jsIndex · i)

/-- `v?.length`: arrays and strings have a numeric length, objects may carry
a `length` property, anything else gives `undefined`. -/
def jsLengthOpt : Option Json → Option Json
  | some (.arr l) => some (.num l.length)
  | some (.str s) => some (.num s.length)
  | some (.obj fields) => fields.lookup "length"
  | _ => none

mutual
/-- JS `String(v)` / template-literal coercion. -/
def jsToString : Json → String
  | .null => "null"
  | .bool true => "true"
  | .bool false => "false"
  | .num n => toString n
  | .str s => s
  | .arr l => jsArrJoin l
  | .obj _ => "[object Object]"

/-- `Array.prototype.join` with the default comma separator (a `null`
element joins as the empty string). -/
def jsArrJoin : JsonItems → String
  | .nil => ""
  | .cons x .nil => (match x with | .null => "" | v => jsToString v)
  | .cons x xs => (match x with | .null => "" | v => jsToString v) ++ "," ++ jsArrJoin xs
end

/-- String coercion where `none` is `undefined`. -/
def jsToStringOpt : Option Json → String
  | none => "undefined"
  | some v => jsToString v

/-- `a || b` on values (`none` = `undefined`). -/
def jsOrJ (a : Option Json) (b : Json) : Json :=
  match a with
  | some v => if jsTruthy v then v else b
  | none => b

/-- `Object.entries(v)`: fields of an object in order, indexed elements of an
array or string, nothing for primitives. -/
def jsEntries : Json → List (String × Json)
  | .obj fields => fields.toList
  | .arr l => (l.toList.enum.map fun (i, v) => (toString i, v))
  | .str s => (s.data.enum.map fun (i, c) => (toString i, Json.str (String.mk [c])))
  | _ => []

/-- An upstream HTTP response: its status and the `JSON.parse` of its body
text (`none`: invalid JSON, so `res.json()` raises). -/
structure Response where
  status : Nat
  body : Option Json

/-- `res.ok` of the fetch API: status in the 200-299 range. -/
def Response.isOk (r : Response) : Bool :=
  200 ≤ r.status && r.status < 300

/-- The service configuration (the `CONFIG` object plus `BASE_URL`). -/
structure Config where
  baseUrl : String
  bitrate : String
  maxRetries : Nat
  sourcePriority : List String
  forceFallback : Bool

/-! ## fetchWithRetry

`fetchWithRetry(url, options)` loops `i = 0 .. MAX_RETRIES`; a thrown fetch
error or a status `>= 500` counts as a failure; after a failure with
`i < MAX_RETRIES` it sleeps `200 * (i + 1)` ms and retries; after the last
failure it rethrows the last error.  The network is modelled as the family
`attempt : Nat → Except Err Response` giving each attempt's outcome; the
model returns the result together with the number of attempts issued and the
list of back-off delays slept, in order. -/

/-- One loop iteration body: a status `>= 500` is converted into a thrown
`Server Error` exactly as the JS `if (res.status >= 500) throw ...` does. -/
def attemptOutcome (a : Except Err Response) : Except Err Response :=
  match a with
  | .error e => .error e
  | .ok res => if res.status ≥ 500 then .error ("Server Error: " ++ toString res.status) else .ok res

/-- The retry loop from position `i`; `fuel` bounds the remaining iterations
(called with enough fuel that the `0` case is never reached). -/
def fwrGo (attempt : Nat → Except Err Response) (maxRetries : Nat) : Nat → Nat → Except Err Response × Nat × List Nat
  | _, 0 => (.error "", 0, [])
  | i, fuel + 1 =>
    match attemptOutcome (attempt i) with
    | .ok res => (.ok res, 1, [])
    | .error e =>
      if i < maxRetries then
        let rest := fwrGo attempt maxRetries (i + 1) fuel
        (rest.1, rest.2.1 + 1, 200 * (i + 1) :: rest.2.2)
      else (.error e, 1, [])

/-- `fetchWithRetry`: result, number of attempts issued, delays slept. -/
def fetchWithRetry (attempt : Nat → Except Err Response) (maxRetries : Nat) :
    Except Err Response × Nat × List Nat :=
  fwrGo attempt maxRetries 0 (maxRetries + 1)

/-- The message of a failed outcome (used to state which error is rethrown). -/
def outcomeErr : Except Err Response → Err
  | .error e => e
  | .ok _ => ""

/-! ## Template substitution

`tryGetSongFromSource` rewrites each search-descriptor parameter value with
four successive global regex replacements:

1. `/\{\{keyword\}\}/gi  -> keyword`
2. `/\{\{.*?page.*?\}\}/gi -> "0"`
3. `/\{\{.*?limit.*?\}\}/gi -> "10"`
4. `/\{\{.*?\}\}/g -> ""`

The lazy patterns are modelled exactly: a match is `{{`, then the shortest
run of non-newline characters up to an occurrence of the middle literal
(case-insensitively), then the shortest run of non-newline characters up to
`}}`.  For these patterns the backtracking regex semantics coincide with
"first feasible middle occurrence, then first feasible closer", because the
dot cannot cross a newline in either gap.  Replacement strings go through
JavaScript `$`-expansion (`$$`, `$&`, dollar-backquote, dollar-quote; there
are no capture groups, so `$n` stays literal). -/

/-- Lower-case a character (the `i` regex flag). -/
def lc (c : Char) : Char := c.toLower

/-- Case-insensitive prefix test. -/
def ciPrefixB : List Char → List Char → Bool
  | [], _ => true
  | _ :: _, [] => false
  | p :: ps, c :: cs => (lc p == lc c) && ciPrefixB ps cs

/-- First index at which `pat` matches case-insensitively, scanning only
across non-newline characters (the gap consumed by a lazy `.*?`). -/
def findSub (pat : List Char) : List Char → Option Nat
  | [] => if ciPrefixB pat [] then some 0 else none
  | t@(c :: rest) =>
    if ciPrefixB pat t then some 0
    else if c = '\n' then none
    else (findSub pat rest).map (· + 1)

/-- Matcher for the literal pattern `{{keyword}}` (case-insensitive): match
length at the head of the suffix, if any. -/
def litTry (pat : List Char) (s : List Char) : Option Nat :=
  if ciPrefixB pat s then some pat.length else none

/-- Matcher for the lazy pattern `{{.*?mid.*?}}` at the head of the suffix
(`mid = []` gives the plain `{{.*?}}` pattern). -/
def lazyTry (mid : List Char) (s : List Char) : Option Nat :=
  match s with
  | '{' :: '{' :: t =>
    match findSub mid t with
    | none => none
    | some q =>
      match findSub ['}', '}'] (t.drop (q + mid.length)) with
      | some r => some (2 + q + mid.length + r + 2)
      | none => none
  | _ => none

/-- JavaScript `$`-expansion of a string replacement: `$$`, `$&` (the match),
`$` + backquote (the part before), `$` + quote (the part after); any other
`$` is literal (there are no capture groups in the patterns involved). -/
def expandDollar (matched before after : List Char) : List Char → List Char
  | [] => []
  | [c] => [c]
  | c :: d :: t =>
    if c = '$' then
      if d = '$' then '$' :: expandDollar matched before after t
      else if d = '&' then matched ++ expandDollar matched before after t
      else if d = Char.ofNat 96 then before ++ expandDollar matched before after t
      else if d = Char.ofNat 39 then after ++ expandDollar matched before after t
      else '$' :: expandDollar matched before after (d :: t)
    else c :: expandDollar matched before after (d :: t)

/-- Global replacement: scan left to right, at each position try the matcher;
on a match emit the expanded replacement and resume after the match (the
replacement itself is not rescanned), otherwise keep the character.
`beforeRev` is the already-scanned part of the original string (reversed);
`fuel` bounds the scan (every step consumes at least one character, so
`s.length + 1` fuel is always enough). -/
def replGo (tryM : List Char → Option Nat) (repl : List Char) :
    Nat → List Char → List Char → List Char
  | 0, _, s => s
  | _ + 1, _, [] => []
  | fuel + 1, beforeRev, s@(c :: rest) =>
    match tryM s with
    | some len =>
      expandDollar (s.take len) beforeRev.reverse (s.drop len) repl ++
        replGo tryM repl fuel ((s.take len).reverse ++ beforeRev) (s.drop len)
    | none => c :: replGo tryM repl fuel (c :: beforeRev) rest

/-- One global `String.prototype.replace` with a string replacement. -/
def jsReplace (tryM : List Char → Option Nat) (repl : String) (s : String) : String :=
  String.mk (replGo tryM repl.data (s.data.length + 1) [] s.data)

/-- The search-descriptor template substitution applied to one parameter
value: the four regex replacements of the source, in order. -/
def substituteParams (keyword : String) (value : String) : String :=
  let v1 := jsReplace (litTry "{{keyword}}".data) keyword value
  let v2 := jsReplace (lazyTry "page".data) "0" v1
  let v3 := jsReplace (lazyTry "limit".data) "10" v2
  jsReplace (lazyTry []) "" v3

/-! ## getDetailPageLink -/

/-- `getDetailPageLink(source, id)`: static per-source URL templates; unknown
sources give the empty string. -/
def getDetailPageLink (source : String) (id : String) : String :=
  if source = "kuwo" then "https://www.kuwo.cn/play_detail/" ++ id
  else if source = "netease" then "https://music.163.com/#/song?id=" ++ id
  else if source = "qq" then "https://y.qq.com/n/ryqq/songDetail/" ++ id
  else ""

/-! ## extractSongId -/

/-- Longest leading digit run. -/
def digitsOf : List Char → List Char
  | [] => []
  | c :: rest => if c.isDigit then c :: digitsOf rest else []

/-- First match of the regex `MUSIC_(\d+)`: the captured digit group. -/
def musicRidMatch : List Char → Option String
  | [] => none
  | s@(_ :: rest) =>
    if listStarts "MUSIC_".data s then
      let ds := digitsOf (s.drop 6)
      if ds.isEmpty then musicRidMatch rest else some (String.mk ds)
    else musicRidMatch rest

/-- `extractSongId(responseText, source)`: platform-specific extraction of the
song identifier from the parsed search response (`body = none` models a body
that is not valid JSON: `JSON.parse` raises and the surrounding `catch`
returns null).  All raised property accesses (for example `.match` on a
non-string `MUSICRID`) are caught by that same `catch` and also yield null. -/
def extractSongId (body : Option Json) (source : String) : Option Json :=
  match body with
  | none => none
  | some data =>
    if source = "kuwo" then
      let song := jsIndexOpt (jget data "abslist") 0
      if !jsTruthyOpt song then none
      else
        let dct := jgetOpt song "DC_TARGETID"
        if jsTruthyOpt dct then dct
        else
          match jgetOpt song "MUSICRID" with
          | some (.str rid) => if rid = "" then none else (musicRidMatch rid.data).map Json.str
          | _ => none
    else if source = "netease" then
      jgetOpt (jsIndexOpt (jgetOpt (jget data "result") "songs") 0) "id"
    else if source = "qq" then
      jgetOpt (jsIndexOpt (jgetOpt (jgetOpt (jget data "data") "song") "list") 0) "songmid"
    else none

/-! ## URL validity

`new URL(value)` (and `fetch` on a string URL) raises on strings without an
absolute-URL scheme.  The WHATWG parser is approximated by its scheme check:
an ASCII letter followed by letters/digits/`+`/`-`/`.` up to a colon.  The
claims under verification never depend on finer URL parsing: the constructed
URL never reaches a modelled observation point, and the environment supplies
each upstream response directly. -/

/-- Characters allowed after the first character of a URL scheme. -/
def isSchemeTail (c : Char) : Bool := c.isAlphanum || c = '+' || c = '-' || c = '.'

/-- Scan for the colon ending a scheme. -/
def schemeScan : List Char → Bool
  | [] => false
  | c :: rest => if c = ':' then true else isSchemeTail c && schemeScan rest

/-- Whether `new URL(s)` succeeds. -/
def validURL (s : String) : Bool :=
  match s.data with
  | [] => false
  | c :: rest => c.isAlpha && schemeScan rest

/-! ## The normalized song record and the two adapters -/

/-- The JSON object returned for a successfully resolved song.  Fields that
the JS fills with raw upstream values are `Json`; fields it always builds
from template literals are `String`. -/
structure SongRecord where
  code : Nat
  title : Json
  singer : Json
  cover : Json
  link : String
  music_url : Json
  lyric : Json
  source : String

/-- The record built at the end of `tryGetSongFromSource` (`song` is
`songs[0]` of the parse response, `songId` the extracted identifier). -/
def mkTuneHubRecord (cfg : Config) (source : String) (songId : Json) (song : Json) : SongRecord :=
  let info := jsOrJ (jget song "info") (Json.objOf [])
  { code := 200
  , title := jsOrJ (jget info "name") (.str "未知歌曲")
  , singer := jsOrJ (jget info "artist") (.str "未知歌手")
  , cover := jsOrJ (jget song "cover") (.str "")
  , link := getDetailPageLink source (jsToString songId)
  , music_url := jsOrJ (jget song "url")
      (.str (cfg.baseUrl ++ "/stream?source=" ++ source ++ "&id=" ++ jsToString songId ++ "&br=" ++ cfg.bitrate))
  , lyric := jsOrJ (jget song "lyrics")
      (.str (cfg.baseUrl ++ "/lyric?source=" ++ source ++ "&id=" ++ jsToString songId))
  , source := source }

/-- Upstream behaviour backing one `tryGetSongFromSource` invocation: the
attempt outcomes of the two retried fetches, and the plain search fetch as a
function of the substituted query parameters. -/
structure TuneHubEnv where
  methodFetch : Nat → Except Err Response
  searchFetch : List (String × String) → Except Err Response
  parseFetch : Nat → Except Err Response

/-- `tryGetSongFromSource(keyword, source)`: fetch the search-method
descriptor, substitute the template parameters, run the search, extract the
song id, parse it, and build the normalized record.  `Except.error` carries
the thrown message (the two `null`-property edge cases raise a `TypeError`
in JS whose exact message is approximated; the orchestrator only scans
messages for the quota keywords, which neither message contains). -/
def tryGetSongFromSource (cfg : Config) (keyword source : String) (env : TuneHubEnv) :
    Except Err (Option SongRecord) :=
  match (fetchWithRetry env.methodFetch cfg.maxRetries).1 with
  | .error e => .error e
  | .ok methodRes =>
    if !methodRes.isOk then .error ("获取搜索配置失败: " ++ toString methodRes.status)
    else match methodRes.body with
    | none => .error "Unexpected token in JSON"
    | some methodData =>
      if !(isNumEq (jget methodData "code") 0 && jsTruthyOpt (jget methodData "data")) then
        .error "搜索配置无效"
      else
        let searchConfig := (jget methodData "data").getD Json.null
        let searchParams := (jsEntries (jsOrJ (jget searchConfig "params") (Json.objOf []))).map
          (fun kv => (kv.1, substituteParams keyword (jsToString kv.2)))
        if !validURL (jsToStringOpt (jget searchConfig "url")) then .error "Invalid URL"
        else match env.searchFetch searchParams with
        | .error e => .error e
        | .ok searchRes =>
          if !searchRes.isOk then .error ("搜索失败: " ++ toString searchRes.status)
          else
            let songId := extractSongId searchRes.body source
            if !jsTruthyOpt songId then .ok none
            else match (fetchWithRetry env.parseFetch cfg.maxRetries).1 with
            | .error e => .error e
            | .ok parseRes =>
              if !parseRes.isOk then .error ("解析失败: " ++ toString parseRes.status)
              else match parseRes.body with
              | none => .error "Unexpected token in JSON"
              | some parseData =>
                let songs := jgetOpt (jget parseData "data") "data"
                if !(isNumEq (jget parseData "code") 0 && jsTruthyOpt (jsLengthOpt songs)) then
                  .error "解析歌曲失败"
                else match jsIndexOpt songs 0 with
                | none => .error "Cannot read properties of undefined"
                | some song =>
                  if !jsTruthyOpt (jget song "success") then .error "解析歌曲失败"
                  else .ok (some (mkTuneHubRecord cfg source (songId.getD Json.null) song))

/-- Upstream behaviour backing one `tryKuwoFallbackAPI` invocation. -/
structure KuwoEnv where
  fetchAttempts : Nat → Except Err Response

/-- The record built by `tryKuwoFallbackAPI` from `data.data[0]`. -/
def mkFallbackRecord (cfg : Config) (song : Json) : SongRecord :=
  let rid := jsToStringOpt (jget song "rid")
  { code := 200
  , title := jsOrJ (jget song "name") (.str "未知歌曲")
  , singer := jsOrJ (jget song "artist") (.str "未知歌手")
  , cover := jsOrJ (jget song "pic") (.str "")
  , link := "https://www.kuwo.cn/play_detail/" ++ rid
  , music_url := .str (cfg.baseUrl ++ "/fallback-stream?id=" ++ rid)
  , lyric := .str (cfg.baseUrl ++ "/fallback-lyric?id=" ++ rid)
  , source := "kuwo-fallback" }

/-- `tryKuwoFallbackAPI(keyword)`: one retried fetch against the free API;
a non-ok response, an invalid JSON body, or a result list whose length is
falsy raise; otherwise the proxied record is built.  The keyword only feeds
the request URL, which the environment abstracts over. -/
def tryKuwoFallbackAPI (cfg : Config) (_keyword : String) (env : KuwoEnv) :
    Except Err SongRecord :=
  match (fetchWithRetry env.fetchAttempts cfg.maxRetries).1 with
  | .error e => .error e
  | .ok res =>
    if !res.isOk then .error ("备用 API 请求失败: " ++ toString res.status)
    else match res.body with
    | none => .error "Unexpected token in JSON"
    | some data =>
      if isNumEq (jget data "code") 200 && jsTruthyOpt (jsLengthOpt (jget data "data")) then
        match jsIndexOpt (jget data "data") 0 with
        | some song => .ok (mkFallbackRecord cfg song)
        | none => .error "Cannot read properties of undefined"
      else .error "备用 API 未找到结果"

/-! ## The fallback orchestrator -/

/-- Trace events: one per adapter invocation, in order. -/
inductive Ev where
  | primaryCall (source : String)
  | fallbackCall
deriving DecidableEq

/-- The quota-exhaustion test of the orchestrator on a thrown message. -/
def quotaSignal (e : Err) : Bool :=
  strIncludes "403" e || strIncludes "402" e || strIncludes "积分" e

/-- Result of the priority loop: early success, or exhaustion carrying the
`lastError` and `shouldFallback` flags of the JS, plus the sources called. -/
inductive LoopOut where
  | success (r : SongRecord) (called : List String)
  | exhausted (lastError : Option Err) (shouldFallback : Bool) (called : List String)

/-- Record one more called source in front of a loop result. -/
def LoopOut.push (s : String) : LoopOut → LoopOut
  | .success r c => .success r (s :: c)
  | .exhausted e f c => .exhausted e f (s :: c)

/-- Whole-search upstream behaviour: one `TuneHubEnv` per primary source and
the fallback behaviour (each source is invoked at most once per search). -/
structure SearchEnv where
  tunehub : String → TuneHubEnv
  kuwoFallback : KuwoEnv

/-- The `for (const source of CONFIG.SOURCE_PRIORITY)` loop: a truthy result
returns, a falsy one continues, a thrown quota-signalling error breaks with
`shouldFallback = true`, any other thrown error updates `lastError` and
continues. -/
def searchLoop (cfg : Config) (keyword : String) (env : SearchEnv) :
    List String → Option Err → LoopOut
  | [], lastErr => .exhausted lastErr false []
  | s :: rest, lastErr =>
    match tryGetSongFromSource cfg keyword s (env.tunehub s) with
    | .ok (some r) => .success r [s]
    | .ok none => (searchLoop cfg keyword env rest lastErr).push s
    | .error e =>
      if quotaSignal e then .exhausted (some e) true [s]
      else (searchLoop cfg keyword env rest (some e)).push s

/-- The value returned by `searchAndGetSongInfo`: a song object, the 404
not-found object, or the 500 object of the forced-fallback branch. -/
inductive SearchRes where
  | song (r : SongRecord)
  | notFound (message : String)
  | fatal (message : String)

/-- The `code` field of the returned object. -/
def SearchRes.code : SearchRes → Nat
  | .song r => r.code
  | .notFound _ => 404
  | .fatal _ => 500

/-- `searchAndGetSongInfo(keyword)` together with the trace of adapter
invocations.  In the forced branch the fallback result object is always
truthy, so the JS `if (fallbackResult)` guard always passes and the loop
below it is unreachable. -/
def searchAndGetSongInfo (cfg : Config) (keyword : String) (env : SearchEnv) :
    SearchRes × List Ev :=
  if cfg.forceFallback then
    match tryKuwoFallbackAPI cfg keyword env.kuwoFallback with
    | .ok r => (.song r, [.fallbackCall])
    | .error e => (.fatal ("备用 API 失败: " ++ e), [.fallbackCall])
  else
    match searchLoop cfg keyword env cfg.sourcePriority none with
    | .success r called => (.song r, called.map Ev.primaryCall)
    | .exhausted lastErr shouldFallback called =>
      if shouldFallback || lastErr.isSome then
        match tryKuwoFallbackAPI cfg keyword env.kuwoFallback with
        | .ok r => (.song r, called.map Ev.primaryCall ++ [.fallbackCall])
        | .error _ =>
          (.notFound ("未找到歌曲: " ++ keyword), called.map Ev.primaryCall ++ [.fallbackCall])
      else (.notFound ("未找到歌曲: " ++ keyword), called.map Ev.primaryCall)

/-! ## Route handlers -/

/-- A query/header value filtered through JS truthiness (absent or empty
string are both falsy). -/
def truthyParam : Option String → Option String
  | some s => if s = "" then none else some s
  | none => none

/-- The reply of the `/` route handler. -/
inductive RootRes where
  | missingName (status : Nat) (code : Nat) (message : String)
  | searched (result : SearchRes)

/-- The `/` handler: `const name = request.query.name || request.query.hame`,
400 when that is falsy, otherwise the search pipeline.  The pipeline is a
total function in this model (every upstream call of the JS sits inside a
try/catch), so the JS catch branch mapping a thrown error to 500 has no
counterpart here. -/
def rootHandler (cfg : Config) (env : SearchEnv) (query : List (String × String)) :
    RootRes × List Ev :=
  match truthyParam (query.lookup "name") with
  | some kw =>
    let out := searchAndGetSongInfo cfg kw env
    (.searched out.1, out.2)
  | none =>
    match truthyParam (query.lookup "hame") with
    | some kw =>
      let out := searchAndGetSongInfo cfg kw env
      (.searched out.1, out.2)
    | none => (.missingName 400 400 "缺少 name 参数，请使用 ?name=歌曲名 格式请求", [])

/-- Headers attached to the upstream audio fetch of `/stream`. -/
structure AudioReq where
  range : Option String
  userAgent : String
  referer : Option String

/-- The upstream audio response (status and the headers the handler reads;
`acceptRanges` is what the upstream sent, which the handler ignores). -/
structure AudioRes where
  status : Nat
  contentType : Option String
  contentLength : Option String
  contentRange : Option String
  acceptRanges : Option String

/-- Upstream behaviour backing one `/stream` request: the parse response and
the audio fetch as a function of the url and the request headers. -/
structure StreamEnv where
  parseRes : Except Err Response
  audio : String → AudioReq → Except Err AudioRes

/-- The reply of the `/stream` handler: an error reply, or the proxied
response with the headers the handler sets. -/
inductive StreamRes where
  | errorReply (status : Nat) (error : String)
  | proxied (status : Nat) (contentType : String) (acceptRanges : String)
      (contentLength : Option String) (contentRange : Option String)

/-- The `/stream` handler, returning its reply and the audio request actually
issued upstream (`none` when no audio fetch happened).  The Range header is
forwarded only when truthy, `Accept-Ranges` is always set to `bytes`,
`Content-Length`/`Content-Range` are set only when the upstream header is
truthy, and a `Referer` is attached for the netease source. -/
def streamHandler (cfg : Config) (env : StreamEnv) (query : List (String × String))
    (rangeHeader : Option String) : StreamRes × Option AudioReq :=
  match truthyParam (query.lookup "source"), truthyParam (query.lookup "id") with
  | some source, some _id =>
    let _bitrate := (truthyParam (query.lookup "br")).getD cfg.bitrate
    match env.parseRes with
    | .error _ => (.errorReply 502 "音频获取失败", none)
    | .ok parseRes =>
      if !parseRes.isOk then (.errorReply 502 "解析失败", none)
      else match parseRes.body with
      | none => (.errorReply 502 "音频获取失败", none)
      | some parseData =>
        let songs := jgetOpt (jget parseData "data") "data"
        if !(isNumEq (jget parseData "code") 0 && jsTruthyOpt (jsLengthOpt songs)) then
          (.errorReply 404 "未找到音频", none)
        else match jsIndexOpt songs 0 with
        | none => (.errorReply 502 "音频获取失败", none)
        | some song =>
          if !jsTruthyOpt (jget song "success") then (.errorReply 404 "未找到音频", none)
          else
            let audioUrl := jget song "url"
            if !jsTruthyOpt audioUrl then (.errorReply 404 "音频链接不可用", none)
            else
              let req : AudioReq :=
                { range := truthyParam rangeHeader
                , userAgent := "Mozilla/5.0 (Windows NT 10.0; Win64; x64) AppleWebKit/537.36"
                , referer := if source = "netease" then some "https://music.163.com/" else none }
              if !validURL (jsToStringOpt audioUrl) then (.errorReply 502 "音频获取失败", none)
              else match env.audio (jsToStringOpt audioUrl) req with
              | .error _ => (.errorReply 502 "音频获取失败", some req)
              | .ok ares =>
                ( .proxied ares.status ((truthyParam ares.contentType).getD "audio/mpeg") "bytes"
                    (truthyParam ares.contentLength) (truthyParam ares.contentRange)
                , some req )
  | _, _ => (.errorReply 400 "缺少 source 或 id 参数", none)

/-! ## Case-insensitive containment (used to state the substitution claims) -/

/-- Lower-cased character list. -/
def lcList (s : List Char) : List Char := s.map lc

/-- Case-insensitive containment: some suffix starts with `mid`
case-insensitively. -/
def hasCIB (mid : List Char) : List Char → Bool
  | [] => ciPrefixB mid []
  | s@(_ :: rest) => ciPrefixB mid s || hasCIB mid rest

/-- A placeholder-name/literal character: not a brace (up to lower-casing,
which braces are fixed by) and not a newline. -/
abbrev simpleChar (c : Char) : Prop := lc c ≠ '{' ∧ lc c ≠ '}' ∧ c ≠ '\n'

/-- A keyword character that cannot create or alter placeholder syntax nor
trigger `$`-expansion. -/
abbrev plainKwChar (c : Char) : Prop := lc c ≠ '{' ∧ lc c ≠ '}' ∧ c ≠ '$'

/-- A single placeholder: the characters of the template `\x7b\x7bname\x7d\x7d`. -/
def braceWrap (name : List Char) : List Char := '{' :: '{' :: (name ++ ['}', '}'])

/-! ## Concrete fixtures used by witnesses and counterexamples -/

/-- A standard configuration: defaults of `CONFIG` with priority `[kuwo]`. -/
def cfgStd : Config :=
  { baseUrl := "http://localhost:3000", bitrate := "320k", maxRetries := 2
  , sourcePriority := ["kuwo"], forceFallback := false }

/-- The standard configuration with the force-fallback switch enabled. -/
def cfgForced : Config := { cfgStd with forceFallback := true }

/-- A successful method-descriptor response. -/
def methodOkRes : Response :=
  { status := 200
  , body := some (.objOf [("code", .num 0),
      ("data", .objOf [("url", .str "https://up.example/search"),
        ("params", .objOf [("key", .str "{{keyword}}"), ("pn", .str "{{page}}")])])]) }

/-- A kuwo search response whose first hit carries `DC_TARGETID = "12345"`. -/
def searchOkKuwoRes : Response :=
  { status := 200
  , body := some (.objOf [("abslist", .arrOf [.objOf [("DC_TARGETID", .str "12345")]])]) }

/-- The first song of `parseOkRes` (also used standalone in statements). -/
def tunehubSong : Json :=
  .objOf [("success", .bool true),
    ("url", .str "https://cdn.example/a.mp3"),
    ("cover", .str "https://cdn.example/c.jpg"),
    ("lyrics", .str "https://cdn.example/l.lrc"),
    ("info", .objOf [("name", .str "Song"), ("artist", .str "Artist")])]

/-- A successful parse response carrying direct upstream asset URLs. -/
def parseOkRes : Response :=
  { status := 200
  , body := some (.objOf [("code", .num 0),
      ("data", .objOf [("data", .arrOf [tunehubSong])])]) }

/-- A fully successful TuneHub upstream. -/
def tunehubOkEnv : TuneHubEnv :=
  { methodFetch := fun _ => .ok methodOkRes
  , searchFetch := fun _ => .ok searchOkKuwoRes
  , parseFetch := fun _ => .ok parseOkRes }

/-- A TuneHub upstream answering 403 on the method fetch (quota signal). -/
def tunehub403Env : TuneHubEnv :=
  { methodFetch := fun _ => .ok { status := 403, body := none }
  , searchFetch := fun _ => .error "unreachable"
  , parseFetch := fun _ => .error "unreachable" }

/-- A TuneHub upstream that is unreachable (non-quota network error). -/
def tunehubDownEnv : TuneHubEnv :=
  { methodFetch := fun _ => .error "ECONNREFUSED"
  , searchFetch := fun _ => .error "ECONNREFUSED"
  , parseFetch := fun _ => .error "ECONNREFUSED" }

/-- A TuneHub upstream whose search yields no hits (adapter returns null). -/
def tunehubEmptyEnv : TuneHubEnv :=
  { methodFetch := fun _ => .ok methodOkRes
  , searchFetch := fun _ => .ok { status := 200, body := some (.objOf []) }
  , parseFetch := fun _ => .error "unreachable" }

/-- The first song of `kuwoOkRes`. -/
def kuwoSong : Json :=
  .objOf [("name", .str "T"), ("artist", .str "A"),
    ("pic", .str "https://kw.example/p.jpg"), ("rid", .num 999)]

/-- A successful fallback-API response (rid 999). -/
def kuwoOkRes : Response :=
  { status := 200
  , body := some (.objOf [("code", .num 200), ("data", .arrOf [kuwoSong])]) }

/-- A working fallback upstream. -/
def kuwoOkEnv : KuwoEnv := { fetchAttempts := fun _ => .ok kuwoOkRes }

/-- An unreachable fallback upstream. -/
def kuwoDownEnv : KuwoEnv := { fetchAttempts := fun _ => .error "fallback down" }

/-- Primary sources unreachable, fallback working. -/
def searchEnvDownOk : SearchEnv := { tunehub := fun _ => tunehubDownEnv, kuwoFallback := kuwoOkEnv }

/-- Everything works on the primary path. -/
def searchEnvOk : SearchEnv := { tunehub := fun _ => tunehubOkEnv, kuwoFallback := kuwoOkEnv }

/-- Primary quota-exhausted, fallback down. -/
def searchEnv403 : SearchEnv := { tunehub := fun _ => tunehub403Env, kuwoFallback := kuwoDownEnv }

/-- Primary finds nothing (no errors), fallback down. -/
def searchEnvEmpty : SearchEnv := { tunehub := fun _ => tunehubEmptyEnv, kuwoFallback := kuwoDownEnv }

/-- The song of a successful `/stream` parse response. -/
def streamSong : Json :=
  .objOf [("success", .bool true), ("url", .str "https://cdn.example/a.mp3")]

/-- A successful `/stream` parse response. -/
def streamParseOkRes : Response :=
  { status := 200
  , body := some (.objOf [("code", .num 0), ("data", .objOf [("data", .arrOf [streamSong])])]) }

/-- The upstream audio response used by the C7 counterexample: it announces
`Accept-Ranges: none`. -/
def audioResCex : AudioRes :=
  { status := 206, contentType := some "audio/mpeg", contentLength := some "100"
  , contentRange := some "bytes 0-99/1000", acceptRanges := some "none" }

/-- A `/stream` upstream: parse succeeds, audio always answers `audioResCex`. -/
def streamEnvCex : StreamEnv :=
  { parseRes := .ok streamParseOkRes, audio := fun _ _ => .ok audioResCex }

/-! # Theorems -/

/-! ## C9: the detail link builder -/

/-- Claim C9: `getDetailPageLink` is a pure function of the source and the
identifier, given by the three static templates (kuwo, netease, qq). -/
theorem getDetailPageLink_templates (id : String) :
    getDetailPageLink "kuwo" id = "https://www.kuwo.cn/play_detail/" ++ id ∧
    getDetailPageLink "netease" id = "https://music.163.com/#/song?id=" ++ id ∧
    getDetailPageLink "qq" id = "https://y.qq.com/n/ryqq/songDetail/" ++ id :=
  ⟨rfl, rfl, rfl⟩

/-! ## C4: the retrying upstream client -/

theorem fwrGo_count_le (a : Nat → Except Err Response) (mr : Nat) :
    ∀ fuel i, (fwrGo a mr i fuel).2.1 ≤ fuel := by
  intro fuel
  induction fuel with
  | zero => intro i; simp [fwrGo]
  | succ f ih =>
    intro i
    simp only [fwrGo]
    cases h : attemptOutcome (a i) with
    | ok res => simp
    | error e =>
      simp only
      split
      · have := ih (i + 1)
        simp only []
        omega
      · simp

theorem fwrGo_count_pos (a : Nat → Except Err Response) (mr : Nat) :
    ∀ fuel i, 1 ≤ fuel → 1 ≤ (fwrGo a mr i fuel).2.1 := by
  intro fuel i hf
  match fuel, hf with
  | f + 1, _ =>
    simp only [fwrGo]
    cases h : attemptOutcome (a i) with
    | ok res => simp
    | error e => simp only; split <;> simp

theorem fwrGo_fails_before (a : Nat → Except Err Response) (mr : Nat) :
    ∀ fuel i j, j + 1 < (fwrGo a mr i fuel).2.1 →
      ∃ e, attemptOutcome (a (i + j)) = .error e := by
  intro fuel
  induction fuel with
  | zero => intro i j h; simp [fwrGo] at h
  | succ f ih =>
    intro i j h
    simp only [fwrGo] at h
    cases hatt : attemptOutcome (a i) with
    | ok res => rw [hatt] at h; simp at h
    | error e =>
      rw [hatt] at h
      simp only at h
      by_cases hlt : i < mr
      · rw [if_pos hlt] at h
        simp only at h
        cases j with
        | zero => exact ⟨e, by simpa using hatt⟩
        | succ j' =>
          have : i + 1 + j' = i + (j' + 1) := by omega
          rw [← this]
          exact ih (i + 1) j' (by omega)
      · rw [if_neg hlt] at h; simp at h

theorem delaysShift (i m : Nat) :
    200 * (i + 1) :: (List.range m).map (fun k => 200 * (i + 1 + k + 1)) =
    (List.range (m + 1)).map (fun k => 200 * (i + k + 1)) := by
  rw [List.range_succ_eq_map]
  simp only [List.map_cons, List.map_map, List.cons.injEq]
  constructor
  · trivial
  · apply List.map_congr_left
    intro k _
    simp only [Function.comp_apply]
    omega

theorem fwrGo_delays_linear (a : Nat → Except Err Response) (mr : Nat) :
    ∀ fuel i, i + fuel = mr + 1 →
      (fwrGo a mr i fuel).2.2 =
        (List.range ((fwrGo a mr i fuel).2.1 - 1)).map (fun k => 200 * (i + k + 1)) := by
  intro fuel
  induction fuel with
  | zero => intro i _; simp [fwrGo]
  | succ f ih =>
    intro i hinv
    simp only [fwrGo]
    cases hatt : attemptOutcome (a i) with
    | ok res => simp
    | error e =>
      simp only []
      by_cases hlt : i < mr
      · rw [if_pos hlt]
        have hf1 : 1 ≤ f := by omega
        have hcnt := fwrGo_count_pos a mr f (i + 1) hf1
        have hdel := ih (i + 1) (by omega)
        simp only []
        obtain ⟨m, hm⟩ : ∃ m, (fwrGo a mr (i + 1) f).2.1 = m + 1 :=
          ⟨(fwrGo a mr (i + 1) f).2.1 - 1, by omega⟩
        rw [hdel, hm]
        simp only [Nat.add_sub_cancel, Nat.succ_sub_one]
        exact delaysShift i m
      · rw [if_neg hlt]; simp

theorem fwrGo_allfail (a : Nat → Except Err Response) (mr : Nat)
    (hall : ∀ j, ∃ e, attemptOutcome (a j) = .error e) :
    ∀ fuel i, 1 ≤ fuel → i + fuel = mr + 1 →
      fwrGo a mr i fuel =
        (.error (outcomeErr (attemptOutcome (a mr))), fuel,
          (List.range (fuel - 1)).map (fun k => 200 * (i + k + 1))) := by
  intro fuel
  induction fuel with
  | zero => intro i h; omega
  | succ f ih =>
    intro i _ hinv
    obtain ⟨e, he⟩ := hall i
    simp only [fwrGo, he]
    by_cases hlt : i < mr
    · rw [if_pos hlt]
      rw [ih (i + 1) (by omega) (by omega)]
      simp only [Nat.succ_sub_one]
      obtain ⟨g, hg⟩ : ∃ g, f = g + 1 := ⟨f - 1, by omega⟩
      subst hg
      simp only [Nat.add_sub_cancel]
      rw [delaysShift]
    · rw [if_neg hlt]
      have hi : i = mr := by omega
      have hf : f = 0 := by omega
      subst hi hf
      simp [he, outcomeErr]

/-- Claim C4: `fetchWithRetry` issues at most `MAX_RETRIES + 1` attempts; a
first attempt that returns a non-5xx response is returned at once with no
retry; every retried attempt was preceded only by failing attempts (network
error or status `>= 500`); the back-off before retry `k + 1` is
`200 * k` ms; and with `MAX_RETRIES = 2` and every attempt failing it issues
exactly 3 attempts, sleeps 200 and 400 ms, and rethrows the last error. -/
theorem fetchWithRetry_contract (a : Nat → Except Err Response) (mr : Nat) :
    (fetchWithRetry a mr).2.1 ≤ mr + 1 ∧
    (∀ res, attemptOutcome (a 0) = .ok res → fetchWithRetry a mr = (.ok res, 1, [])) ∧
    (∀ j, j + 1 < (fetchWithRetry a mr).2.1 → ∃ e, attemptOutcome (a j) = .error e) ∧
    ((fetchWithRetry a mr).2.2 =
      (List.range ((fetchWithRetry a mr).2.1 - 1)).map (fun k => 200 * (k + 1))) ∧
    (mr = 2 → (∀ j, ∃ e, attemptOutcome (a j) = .error e) →
      fetchWithRetry a mr = (.error (outcomeErr (attemptOutcome (a 2))), 3, [200, 400])) := by
  refine ⟨fwrGo_count_le a mr (mr + 1) 0, ?_, ?_, ?_, ?_⟩
  · intro res h
    unfold fetchWithRetry
    exact match mr with
    | 0 => by simp [fwrGo, h]
    | m + 1 => by simp [fwrGo, h]
  · intro j h
    simpa using fwrGo_fails_before a mr (mr + 1) 0 j h
  · have := fwrGo_delays_linear a mr (mr + 1) 0 (by omega)
    unfold fetchWithRetry
    rw [this]
    apply List.map_congr_left
    intro k _
    omega
  · intro hmr hall
    subst hmr
    unfold fetchWithRetry
    have := fwrGo_allfail a 2 hall 3 0 (by omega) (by omega)
    rw [this]
    rfl

/-- Witness for C4 at a concrete always-failing upstream. -/
theorem fetchWithRetry_contract_witness :
    fetchWithRetry (fun _ => Except.error "boom") 2 = (Except.error "boom", 3, [200, 400]) :=
  (fetchWithRetry_contract (fun _ => Except.error "boom") 2).2.2.2.2 rfl
    (fun _ => ⟨"boom", rfl⟩)

/-! ## C3: the force-fallback switch -/

/-- Claim C3: with `FORCE_FALLBACK` enabled, `searchAndGetSongInfo` never
invokes a primary source adapter, whatever the priority list: its trace is
exactly one fallback invocation, and it returns the fallback result on
success or the fatal 500 object when the fallback raises. -/
theorem forceFallback_skips_primaries (cfg : Config) (keyword : String) (env : SearchEnv)
    (hf : cfg.forceFallback = true) :
    (searchAndGetSongInfo cfg keyword env).2 = [Ev.fallbackCall] ∧
    (∀ s, Ev.primaryCall s ∉ (searchAndGetSongInfo cfg keyword env).2) ∧
    (∀ r, tryKuwoFallbackAPI cfg keyword env.kuwoFallback = .ok r →
      (searchAndGetSongInfo cfg keyword env).1 = .song r) ∧
    (∀ e, tryKuwoFallbackAPI cfg keyword env.kuwoFallback = .error e →
      (searchAndGetSongInfo cfg keyword env).1 = .fatal ("备用 API 失败: " ++ e)) := by
  unfold searchAndGetSongInfo
  rw [hf]
  simp only [if_true]
  cases h : tryKuwoFallbackAPI cfg keyword env.kuwoFallback with
  | ok r => refine ⟨rfl, by simp, ?_, ?_⟩ <;> intro x hx <;> simp_all
  | error e => refine ⟨rfl, by simp, ?_, ?_⟩ <;> intro x hx <;> simp_all

/-- Witness for C3: forced configuration, fallback working. -/
theorem forceFallback_skips_primaries_witness :
    (searchAndGetSongInfo cfgForced "k" searchEnvDownOk).2 = [Ev.fallbackCall] ∧
    (∀ s, Ev.primaryCall s ∉ (searchAndGetSongInfo cfgForced "k" searchEnvDownOk).2) :=
  ⟨(forceFallback_skips_primaries cfgForced "k" searchEnvDownOk rfl).1,
   (forceFallback_skips_primaries cfgForced "k" searchEnvDownOk rfl).2.1⟩

/-! ## C2: quota exhaustion degrades to the fallback exactly once -/

theorem searchLoop_quota (cfg : Config) (keyword : String) (env : SearchEnv) :
    ∀ (pre : List String) (s : String) (post : List String) (lastErr : Option Err) (e : Err),
      (∀ s' ∈ pre,
        tryGetSongFromSource cfg keyword s' (env.tunehub s') = .ok none ∨
        ∃ e', tryGetSongFromSource cfg keyword s' (env.tunehub s') = .error e' ∧
          quotaSignal e' = false) →
      tryGetSongFromSource cfg keyword s (env.tunehub s) = .error e →
      quotaSignal e = true →
      searchLoop cfg keyword env (pre ++ s :: post) lastErr = .exhausted (some e) true (pre ++ [s]) := by
  intro pre
  induction pre with
  | nil =>
    intro s post lastErr e _ hs hq
    simp [searchLoop, hs, hq]
  | cons c pre' ih =>
    intro s post lastErr e hpre hs hq
    have hc := hpre c (by simp)
    simp only [List.cons_append, searchLoop, List.append_eq]
    rcases hc with hok | ⟨e', he', hnq⟩
    · simp only [hok]
      rw [ih s post lastErr e (fun s' hs' => hpre s' (by simp [hs'])) hs hq]
      rfl
    · simp only [he', hnq, Bool.false_eq_true, if_false]
      rw [ih s post (some e') e (fun s' hs' => hpre s' (by simp [hs'])) hs hq]
      rfl

theorem count_fallback_in_primaries (l : List String) :
    (l.map Ev.primaryCall).count Ev.fallbackCall = 0 := by
  induction l with
  | nil => rfl
  | cons c rest ih => simpa [List.count_cons] using ih

/-- Claim C2: if, during the priority iteration, a source raises an error the
orchestrator classifies as quota exhaustion (after the earlier sources merely
found nothing or failed without a quota signal), then the trace is exactly
the primary calls up to that source followed by one fallback invocation: the
fallback runs exactly once and no primary adapter is ever called after the
signal. -/
theorem quota_triggers_single_fallback (cfg : Config) (keyword : String) (env : SearchEnv)
    (pre : List String) (s : String) (post : List String) (e : Err)
    (hforce : cfg.forceFallback = false)
    (hprio : cfg.sourcePriority = pre ++ s :: post)
    (hpre : ∀ s' ∈ pre,
      tryGetSongFromSource cfg keyword s' (env.tunehub s') = .ok none ∨
      ∃ e', tryGetSongFromSource cfg keyword s' (env.tunehub s') = .error e' ∧
        quotaSignal e' = false)
    (hs : tryGetSongFromSource cfg keyword s (env.tunehub s) = .error e)
    (hq : quotaSignal e = true) :
    (searchAndGetSongInfo cfg keyword env).2 =
      (pre ++ [s]).map Ev.primaryCall ++ [Ev.fallbackCall] ∧
    (searchAndGetSongInfo cfg keyword env).2.count Ev.fallbackCall = 1 := by
  have hloop := searchLoop_quota cfg keyword env pre s post none e hpre hs hq
  have htrace : (searchAndGetSongInfo cfg keyword env).2 =
      (pre ++ [s]).map Ev.primaryCall ++ [Ev.fallbackCall] := by
    unfold searchAndGetSongInfo
    simp only [hforce, Bool.false_eq_true, if_false]
    rw [hprio, hloop]
    simp only [Bool.true_or, if_true]
    cases tryKuwoFallbackAPI cfg keyword env.kuwoFallback <;> rfl
  refine ⟨htrace, ?_⟩
  rw [htrace]
  simp [List.count_append, count_fallback_in_primaries]

/-- Witness for C2: priority `[kuwo]`, the method fetch answering 403. -/
theorem quota_triggers_single_fallback_witness :
    (searchAndGetSongInfo cfgStd "k" searchEnv403).2 =
      ([] ++ ["kuwo"]).map Ev.primaryCall ++ [Ev.fallbackCall] ∧
    (searchAndGetSongInfo cfgStd "k" searchEnv403).2.count Ev.fallbackCall = 1 :=
  quota_triggers_single_fallback cfgStd "k" searchEnv403 [] "kuwo" []
    "获取搜索配置失败: 403" rfl rfl (fun s' h => absurd h (by simp)) rfl (by decide)

/-! ## C1: exhausting the primaries -/

theorem searchLoop_allNone (cfg : Config) (keyword : String) (env : SearchEnv) :
    ∀ (prio : List String) (lastErr : Option Err),
      (∀ s ∈ prio, tryGetSongFromSource cfg keyword s (env.tunehub s) = .ok none) →
      searchLoop cfg keyword env prio lastErr = .exhausted lastErr false prio := by
  intro prio
  induction prio with
  | nil => intro lastErr _; rfl
  | cons c rest ih =>
    intro lastErr hall
    simp only [searchLoop]
    rw [hall c (by simp)]
    rw [ih lastErr (fun s hs => hall s (by simp [hs]))]
    rfl

/-- Counterexample to C1 as stated: the single primary source is tried and
fails with a plain network error that is not a quota signal, yet the code
still invokes the secondary fallback API (because `lastError` is set) and
returns its 200 result instead of the terminal 404. -/
theorem primaries_exhausted_cex :
    tryGetSongFromSource cfgStd "k" "kuwo" (searchEnvDownOk.tunehub "kuwo") =
      .error "ECONNREFUSED" ∧
    quotaSignal "ECONNREFUSED" = false ∧
    Ev.fallbackCall ∈ (searchAndGetSongInfo cfgStd "k" searchEnvDownOk).2 ∧
    (searchAndGetSongInfo cfgStd "k" searchEnvDownOk).1.code = 200 := by
  refine ⟨rfl, by decide, by decide, rfl⟩

/-- Claim C1 (amended): if force-fallback is off and every primary source in
the priority list is tried and returns "no result" without raising any error
(in particular, without a quota signal), then the search returns the terminal
404 object echoing the keyword and the secondary fallback API is never
invoked.  (As written the claim is false: any raised error, quota or not,
makes the orchestrator call the fallback, see the counterexample.) -/
theorem primaries_exhausted_notFound (cfg : Config) (keyword : String) (env : SearchEnv)
    (hforce : cfg.forceFallback = false)
    (hall : ∀ s ∈ cfg.sourcePriority,
      tryGetSongFromSource cfg keyword s (env.tunehub s) = .ok none) :
    searchAndGetSongInfo cfg keyword env =
      (.notFound ("未找到歌曲: " ++ keyword), cfg.sourcePriority.map Ev.primaryCall) ∧
    Ev.fallbackCall ∉ (searchAndGetSongInfo cfg keyword env).2 := by
  have hloop := searchLoop_allNone cfg keyword env cfg.sourcePriority none hall
  have hmain : searchAndGetSongInfo cfg keyword env =
      (.notFound ("未找到歌曲: " ++ keyword), cfg.sourcePriority.map Ev.primaryCall) := by
    unfold searchAndGetSongInfo
    simp only [hforce, Bool.false_eq_true, if_false]
    rw [hloop]
    simp
  refine ⟨hmain, ?_⟩
  rw [hmain]
  simp

/-- Witness for the amended C1: both configured sources find nothing. -/
theorem primaries_exhausted_notFound_witness :
    searchAndGetSongInfo cfgStd "k" searchEnvEmpty =
      (.notFound ("未找到歌曲: " ++ "k"), [Ev.primaryCall "kuwo"]) ∧
    Ev.fallbackCall ∉ (searchAndGetSongInfo cfgStd "k" searchEnvEmpty).2 :=
  primaries_exhausted_notFound cfgStd "k" searchEnvEmpty rfl
    (fun s hs => by
      have : s = "kuwo" := by simpa [cfgStd] using hs
      subst this
      rfl)

/-! ## C10: the search pipeline is total with code 200/404/500 -/

theorem mkTuneHubRecord_code (cfg : Config) (source : String) (songId song : Json) :
    (mkTuneHubRecord cfg source songId song).code = 200 := rfl

theorem mkFallbackRecord_code (cfg : Config) (song : Json) :
    (mkFallbackRecord cfg song).code = 200 := rfl

theorem tryGetSongFromSource_ok_code (cfg : Config) (keyword source : String)
    (env : TuneHubEnv) (r : SongRecord)
    (h : tryGetSongFromSource cfg keyword source env = .ok (some r)) : r.code = 200 := by
  unfold tryGetSongFromSource at h
  repeat' first
    | (split at h)
    | (simp only [] at h)
  all_goals simp_all [mkTuneHubRecord_code]
  all_goals (subst h; rfl)

theorem tryKuwoFallbackAPI_ok_code (cfg : Config) (keyword : String) (env : KuwoEnv)
    (r : SongRecord) (h : tryKuwoFallbackAPI cfg keyword env = .ok r) : r.code = 200 := by
  unfold tryKuwoFallbackAPI at h
  repeat' first
    | (split at h)
    | (simp only [] at h)
  all_goals simp_all [mkFallbackRecord_code]
  all_goals (subst h; rfl)

theorem LoopOut.push_success (lo : LoopOut) (s : String) (r : SongRecord) (c : List String)
    (h : lo.push s = .success r c) : ∃ c', lo = .success r c' := by
  cases lo with
  | success r' c' =>
    simp only [LoopOut.push, LoopOut.success.injEq] at h
    exact ⟨c', by rw [h.1]⟩
  | exhausted e f c' => simp [LoopOut.push] at h

theorem searchLoop_success_code (cfg : Config) (keyword : String) (env : SearchEnv) :
    ∀ (prio : List String) (lastErr : Option Err) (r : SongRecord) (called : List String),
      searchLoop cfg keyword env prio lastErr = .success r called → r.code = 200 := by
  intro prio
  induction prio with
  | nil => intro lastErr r called h; simp [searchLoop] at h
  | cons s rest ih =>
    intro lastErr r called h
    simp only [searchLoop] at h
    cases htry : tryGetSongFromSource cfg keyword s (env.tunehub s) with
    | ok o =>
      rw [htry] at h
      cases o with
      | some r' =>
        simp only [LoopOut.success.injEq] at h
        rw [← h.1]
        exact tryGetSongFromSource_ok_code cfg keyword s (env.tunehub s) r' htry
      | none =>
        simp only at h
        obtain ⟨c', hc'⟩ := LoopOut.push_success _ s r called h
        exact ih lastErr r c' hc'
    | error e =>
      rw [htry] at h
      simp only at h
      by_cases hq : quotaSignal e
      · rw [if_pos hq] at h; simp at h
      · rw [if_neg hq] at h
        obtain ⟨c', hc'⟩ := LoopOut.push_success _ s r called h
        exact ih (some e) r c' hc'

/-- Claim C10: whatever the configuration, the keyword and the behaviour of
every upstream call, `searchAndGetSongInfo` returns a value (in this model it
is a total function: every upstream interaction of the JS sits inside a
try/catch) whose `code` field is 200, 404 or 500 — so the catch branch of the
`/` route handler that maps a thrown error to HTTP 500 is unreachable. -/
theorem searchAndGetSongInfo_total_codes (cfg : Config) (keyword : String) (env : SearchEnv) :
    (searchAndGetSongInfo cfg keyword env).1.code = 200 ∨
    (searchAndGetSongInfo cfg keyword env).1.code = 404 ∨
    (searchAndGetSongInfo cfg keyword env).1.code = 500 := by
  unfold searchAndGetSongInfo
  by_cases hf : cfg.forceFallback
  · simp only [hf, if_true]
    cases hfb : tryKuwoFallbackAPI cfg keyword env.kuwoFallback with
    | ok r =>
      left
      simpa [SearchRes.code] using tryKuwoFallbackAPI_ok_code cfg keyword env.kuwoFallback r hfb
    | error e => right; right; rfl
  · simp only [hf, Bool.false_eq_true, if_false]
    cases hloop : searchLoop cfg keyword env cfg.sourcePriority none with
    | success r called =>
      left
      simpa [SearchRes.code] using searchLoop_success_code cfg keyword env _ none r called hloop
    | exhausted lastErr shouldFallback called =>
      simp only []
      by_cases hcond : (shouldFallback || lastErr.isSome) = true
      · rw [if_pos hcond]
        cases hfb : tryKuwoFallbackAPI cfg keyword env.kuwoFallback with
        | ok r =>
          left
          simpa [SearchRes.code] using tryKuwoFallbackAPI_ok_code cfg keyword env.kuwoFallback r hfb
        | error e => right; left; rfl
      · rw [if_neg hcond]
        right; left; rfl

/-! ## C6: missing `name` parameter -/

/-- Counterexample to C6 as stated: a request whose query carries no `name`
parameter but supplies the typo-tolerated `hame` alias is not answered 400:
the handler runs the search pipeline with the alias value (here ending in the
404 object because no source finds anything). -/
theorem rootHandler_missing_name_cex :
    List.lookup "name" [("hame", "x")] = (none : Option String) ∧
    rootHandler cfgStd searchEnvEmpty [("hame", "x")] =
      (.searched (.notFound "未找到歌曲: x"), [Ev.primaryCall "kuwo"]) :=
  ⟨rfl, rfl⟩

/-- Claim C6 (amended): a `GET /` whose query has neither a truthy `name`
parameter nor a truthy `hame` alias (the code tolerates that typo) is
answered with HTTP status 400, a body carrying `code: 400` and a message
naming the `name` parameter, and the search pipeline is not invoked. -/
theorem rootHandler_missing_name (cfg : Config) (env : SearchEnv)
    (query : List (String × String))
    (hname : truthyParam (query.lookup "name") = none)
    (hhame : truthyParam (query.lookup "hame") = none) :
    rootHandler cfg env query =
      (.missingName 400 400 "缺少 name 参数，请使用 ?name=歌曲名 格式请求", []) ∧
    strIncludes "name" "缺少 name 参数，请使用 ?name=歌曲名 格式请求" = true := by
  constructor
  · unfold rootHandler
    simp only [hname, hhame]
  · decide

/-- Witness for the amended C6: the empty query string. -/
theorem rootHandler_missing_name_witness :
    rootHandler cfgStd searchEnvEmpty [] =
      (.missingName 400 400 "缺少 name 参数，请使用 ?name=歌曲名 格式请求", []) ∧
    strIncludes "name" "缺少 name 参数，请使用 ?name=歌曲名 格式请求" = true :=
  rootHandler_missing_name cfgStd searchEnvEmpty [] rfl rfl

/-! ## C7: Range forwarding on `/stream` -/

/-- Counterexample to C7 as stated: the upstream audio response announces
`Accept-Ranges: none`, but the handler's reply always carries
`Accept-Ranges: bytes` — that header is not echoed unchanged from the
upstream. -/
theorem streamHandler_acceptRanges_cex :
    (streamHandler cfgStd streamEnvCex [("source", "kuwo"), ("id", "1")]
        (some "bytes=0-99")).1 =
      .proxied 206 "audio/mpeg" "bytes" (some "100") (some "bytes 0-99/1000") ∧
    audioResCex.acceptRanges = some "none" ∧
    ("bytes" : String) ≠ "none" :=
  ⟨rfl, rfl, by decide⟩

/-- Claim C7 (amended): on a `/stream` request that reaches the upstream
audio fetch with a non-empty Range header, that exact header is forwarded on
the upstream request; the reply mirrors the upstream `Content-Range`
unchanged whenever the upstream sends a non-empty one, and the reply status
is the upstream status — but `Accept-Ranges` is always set to `bytes`
regardless of what the upstream returned.  (The hypotheses spell out the
successful parse path that makes the handler reach the audio fetch.) -/
theorem streamHandler_range_forwarding (cfg : Config) (env : StreamEnv)
    (source id rng : String) (hsrc : source ≠ "") (hid : id ≠ "") (hrng : rng ≠ "")
    (pres : Response) (pd song audioUrl : Json)
    (hparse : env.parseRes = .ok pres)
    (hok : pres.isOk = true)
    (hbody : pres.body = some pd)
    (hchecks : (isNumEq (jget pd "code") 0 &&
      jsTruthyOpt (jsLengthOpt (jgetOpt (jget pd "data") "data"))) = true)
    (hsong : jsIndexOpt (jgetOpt (jget pd "data") "data") 0 = some song)
    (hsucc : jsTruthyOpt (jget song "success") = true)
    (hurl : jget song "url" = some audioUrl)
    (hurlT : jsTruthy audioUrl = true)
    (hvalid : validURL (jsToString audioUrl) = true) :
    (streamHandler cfg env [("source", source), ("id", id)] (some rng)).2 =
      some { range := some rng
           , userAgent := "Mozilla/5.0 (Windows NT 10.0; Win64; x64) AppleWebKit/537.36"
           , referer := if source = "netease" then some "https://music.163.com/" else none } ∧
    (∀ ares, env.audio (jsToString audioUrl)
        { range := some rng
        , userAgent := "Mozilla/5.0 (Windows NT 10.0; Win64; x64) AppleWebKit/537.36"
        , referer := if source = "netease" then some "https://music.163.com/" else none } =
          .ok ares →
      (streamHandler cfg env [("source", source), ("id", id)] (some rng)).1 =
        .proxied ares.status ((truthyParam ares.contentType).getD "audio/mpeg") "bytes"
          (truthyParam ares.contentLength) (truthyParam ares.contentRange)) := by
  have hq : streamHandler cfg env [("source", source), ("id", id)] (some rng) =
      (match env.audio (jsToStringOpt (some audioUrl))
          { range := truthyParam (some rng)
          , userAgent := "Mozilla/5.0 (Windows NT 10.0; Win64; x64) AppleWebKit/537.36"
          , referer := if source = "netease" then some "https://music.163.com/" else none } with
        | .error _ => (.errorReply 502 "音频获取失败",
            some { range := truthyParam (some rng)
                 , userAgent := "Mozilla/5.0 (Windows NT 10.0; Win64; x64) AppleWebKit/537.36"
                 , referer := if source = "netease" then some "https://music.163.com/" else none })
        | .ok ares =>
          ( .proxied ares.status ((truthyParam ares.contentType).getD "audio/mpeg") "bytes"
              (truthyParam ares.contentLength) (truthyParam ares.contentRange)
          , some { range := truthyParam (some rng)
                 , userAgent := "Mozilla/5.0 (Windows NT 10.0; Win64; x64) AppleWebKit/537.36"
                 , referer := if source = "netease" then some "https://music.163.com/" else none })) := by
    have hcs := hchecks
    rw [Bool.and_eq_true] at hcs
    have hT : jsTruthyOpt (some audioUrl) = true := by simpa [jsTruthyOpt] using hurlT
    unfold streamHandler
    simp [List.lookup, truthyParam, jsToStringOpt, hsrc, hid, hparse, hok, hbody,
      hcs.1, hcs.2, hsong, hsucc, hurl, hT, hvalid]
  rw [hq]
  cases ha : env.audio (jsToStringOpt (some audioUrl))
      { range := truthyParam (some rng)
      , userAgent := "Mozilla/5.0 (Windows NT 10.0; Win64; x64) AppleWebKit/537.36"
      , referer := if source = "netease" then some "https://music.163.com/" else none } with
  | error e =>
    simp only [truthyParam, if_neg hrng, jsToStringOpt] at ha
    refine ⟨by simp [truthyParam, if_neg hrng], fun ares h => ?_⟩
    rw [h] at ha
    exact absurd ha (by simp)
  | ok ares =>
    simp only [truthyParam, if_neg hrng, jsToStringOpt] at ha
    refine ⟨by simp [truthyParam, if_neg hrng], fun ares2 h => ?_⟩
    rw [h] at ha
    simp only [Except.ok.injEq] at ha
    subst ha
    simp [truthyParam]

/-- Witness for the amended C7: the concrete stream environment. -/
theorem streamHandler_range_forwarding_witness :
    (streamHandler cfgStd streamEnvCex [("source", "kuwo"), ("id", "1")]
        (some "bytes=0-99")).2 =
      some { range := some "bytes=0-99"
           , userAgent := "Mozilla/5.0 (Windows NT 10.0; Win64; x64) AppleWebKit/537.36"
           , referer := if "kuwo" = "netease" then some "https://music.163.com/" else none } :=
  (streamHandler_range_forwarding cfgStd streamEnvCex "kuwo" "1" "bytes=0-99"
    (by decide) (by decide) (by decide) streamParseOkRes
    (Json.objOf [("code", .num 0), ("data", .objOf [("data", .arrOf [streamSong])])])
    streamSong (Json.str "https://cdn.example/a.mp3")
    rfl rfl rfl rfl rfl rfl rfl rfl (by decide)).1

/-! ## C5: the asset URLs of a successful record -/

theorem tryGetSongFromSource_ok_shape (cfg : Config) (keyword source : String)
    (env : TuneHubEnv) (r : SongRecord)
    (h : tryGetSongFromSource cfg keyword source env = .ok (some r)) :
    ∃ (pres : Response) (pd song : Json) (params : List (String × String)) (sres : Response),
      (fetchWithRetry env.parseFetch cfg.maxRetries).1 = .ok pres ∧
      pres.body = some pd ∧
      jsIndexOpt (jgetOpt (jget pd "data") "data") 0 = some song ∧
      env.searchFetch params = .ok sres ∧
      r = mkTuneHubRecord cfg source ((extractSongId sres.body source).getD Json.null) song ∧
      r.music_url = jsOrJ (jget song "url")
        (.str (cfg.baseUrl ++ "/stream?source=" ++ source ++ "&id=" ++
          jsToString ((extractSongId sres.body source).getD Json.null) ++ "&br=" ++ cfg.bitrate)) ∧
      r.cover = jsOrJ (jget song "cover") (.str "") ∧
      r.lyric = jsOrJ (jget song "lyrics")
        (.str (cfg.baseUrl ++ "/lyric?source=" ++ source ++ "&id=" ++
          jsToString ((extractSongId sres.body source).getD Json.null))) := by
  unfold tryGetSongFromSource at h
  repeat' first
    | (split at h)
    | (simp only [] at h)
  all_goals try exact Except.noConfusion h
  all_goals try exact Option.noConfusion (Except.ok.inj h)
  have h2 := Option.some.inj (Except.ok.inj h)
  subst h2
  rename_i a1 pres heq3 h5 x1 pd heq2 h4 a0 sres heq1 h3 h2a h1a x0 song heqIdx hsucc
  exact ⟨pres, pd, song, _, sres, heq3, heq2, heqIdx, heq1, rfl, rfl, rfl, rfl⟩

theorem tryKuwoFallbackAPI_ok_shape (cfg : Config) (keyword : String) (env : KuwoEnv)
    (r : SongRecord) (h : tryKuwoFallbackAPI cfg keyword env = .ok r) :
    ∃ (res : Response) (data song : Json),
      (fetchWithRetry env.fetchAttempts cfg.maxRetries).1 = .ok res ∧
      res.body = some data ∧
      jsIndexOpt (jget data "data") 0 = some song ∧
      r = mkFallbackRecord cfg song ∧
      r.music_url = .str (cfg.baseUrl ++ "/fallback-stream?id=" ++ jsToStringOpt (jget song "rid")) ∧
      r.lyric = .str (cfg.baseUrl ++ "/fallback-lyric?id=" ++ jsToStringOpt (jget song "rid")) ∧
      r.cover = jsOrJ (jget song "pic") (.str "") := by
  unfold tryKuwoFallbackAPI at h
  repeat' first
    | (split at h)
    | (simp only [] at h)
  all_goals try exact Except.noConfusion h
  have h2 := Except.ok.inj h
  subst h2
  rename_i a1 res heq2 h1a x0 data heq1 hck a0 song heqIdx
  exact ⟨res, data, song, heq2, heq1, heqIdx, rfl, rfl, rfl, rfl⟩

/-- Counterexample to C5 as stated: a successful TuneHub resolution whose
parse response carries direct upstream URLs returns those upstream URLs in
`music_url`, `cover` and `lyric` — they point at the upstream CDN host, not
at the service's own base URL. -/
theorem songRecord_asset_urls_cex :
    tryGetSongFromSource cfgStd "k" "kuwo" tunehubOkEnv =
      .ok (some (mkTuneHubRecord cfgStd "kuwo" (Json.str "12345") tunehubSong)) ∧
    (mkTuneHubRecord cfgStd "kuwo" (Json.str "12345") tunehubSong).music_url =
      Json.str "https://cdn.example/a.mp3" ∧
    (mkTuneHubRecord cfgStd "kuwo" (Json.str "12345") tunehubSong).cover =
      Json.str "https://cdn.example/c.jpg" ∧
    (mkTuneHubRecord cfgStd "kuwo" (Json.str "12345") tunehubSong).lyric =
      Json.str "https://cdn.example/l.lrc" ∧
    listStarts cfgStd.baseUrl.data "https://cdn.example/a.mp3".data = false ∧
    listStarts cfgStd.baseUrl.data "https://cdn.example/c.jpg".data = false ∧
    listStarts cfgStd.baseUrl.data "https://cdn.example/l.lrc".data = false :=
  ⟨rfl, rfl, rfl, rfl, by decide, by decide, by decide⟩

/-- Claim C5 (amended): every successful record has the shape built by the
code: on the TuneHub path, `music_url` and `lyric` are the upstream-provided
values when those are truthy and only otherwise fall back to the
self-referential proxy URLs built from `(baseURL, source, externalID,
bitrate)`, while `cover` is the upstream value (empty-string default); on the
fallback path, `music_url` and `lyric` are always self-referential proxy
URLs built from `(baseURL, externalID)` while `cover` is again the upstream
value.  (As stated the claim is false: the upstream values win when present,
see the counterexample.) -/
theorem songRecord_asset_urls :
    (∀ (cfg : Config) (keyword source : String) (env : TuneHubEnv) (r : SongRecord),
      tryGetSongFromSource cfg keyword source env = .ok (some r) →
      ∃ (pres : Response) (pd song : Json) (params : List (String × String)) (sres : Response),
        (fetchWithRetry env.parseFetch cfg.maxRetries).1 = .ok pres ∧
        pres.body = some pd ∧
        jsIndexOpt (jgetOpt (jget pd "data") "data") 0 = some song ∧
        env.searchFetch params = .ok sres ∧
        r = mkTuneHubRecord cfg source ((extractSongId sres.body source).getD Json.null) song ∧
        r.music_url = jsOrJ (jget song "url")
          (.str (cfg.baseUrl ++ "/stream?source=" ++ source ++ "&id=" ++
            jsToString ((extractSongId sres.body source).getD Json.null) ++ "&br=" ++ cfg.bitrate)) ∧
        r.cover = jsOrJ (jget song "cover") (.str "") ∧
        r.lyric = jsOrJ (jget song "lyrics")
          (.str (cfg.baseUrl ++ "/lyric?source=" ++ source ++ "&id=" ++
            jsToString ((extractSongId sres.body source).getD Json.null)))) ∧
    (∀ (cfg : Config) (keyword : String) (env : KuwoEnv) (r : SongRecord),
      tryKuwoFallbackAPI cfg keyword env = .ok r →
      ∃ (res : Response) (data song : Json),
        (fetchWithRetry env.fetchAttempts cfg.maxRetries).1 = .ok res ∧
        res.body = some data ∧
        jsIndexOpt (jget data "data") 0 = some song ∧
        r = mkFallbackRecord cfg song ∧
        r.music_url = .str (cfg.baseUrl ++ "/fallback-stream?id=" ++ jsToStringOpt (jget song "rid")) ∧
        r.lyric = .str (cfg.baseUrl ++ "/fallback-lyric?id=" ++ jsToStringOpt (jget song "rid")) ∧
        r.cover = jsOrJ (jget song "pic") (.str "")) :=
  ⟨fun cfg keyword source env r h => tryGetSongFromSource_ok_shape cfg keyword source env r h,
   fun cfg keyword env r h => tryKuwoFallbackAPI_ok_shape cfg keyword env r h⟩

/-- Witness for the amended C5 at the concrete successful environments. -/
theorem songRecord_asset_urls_witness :
    (∃ (pres : Response) (pd song : Json) (params : List (String × String)) (sres : Response),
      (fetchWithRetry tunehubOkEnv.parseFetch cfgStd.maxRetries).1 = .ok pres ∧
      pres.body = some pd ∧
      jsIndexOpt (jgetOpt (jget pd "data") "data") 0 = some song ∧
      tunehubOkEnv.searchFetch params = .ok sres ∧
      (mkTuneHubRecord cfgStd "kuwo" (Json.str "12345") tunehubSong) =
        mkTuneHubRecord cfgStd "kuwo" ((extractSongId sres.body "kuwo").getD Json.null) song ∧
      (mkTuneHubRecord cfgStd "kuwo" (Json.str "12345") tunehubSong).music_url =
        jsOrJ (jget song "url")
          (.str (cfgStd.baseUrl ++ "/stream?source=" ++ "kuwo" ++ "&id=" ++
            jsToString ((extractSongId sres.body "kuwo").getD Json.null) ++ "&br=" ++ cfgStd.bitrate)) ∧
      (mkTuneHubRecord cfgStd "kuwo" (Json.str "12345") tunehubSong).cover =
        jsOrJ (jget song "cover") (.str "") ∧
      (mkTuneHubRecord cfgStd "kuwo" (Json.str "12345") tunehubSong).lyric =
        jsOrJ (jget song "lyrics")
          (.str (cfgStd.baseUrl ++ "/lyric?source=" ++ "kuwo" ++ "&id=" ++
            jsToString ((extractSongId sres.body "kuwo").getD Json.null)))) ∧
    (∃ (res : Response) (data song : Json),
      (fetchWithRetry kuwoOkEnv.fetchAttempts cfgStd.maxRetries).1 = .ok res ∧
      res.body = some data ∧
      jsIndexOpt (jget data "data") 0 = some song ∧
      (mkFallbackRecord cfgStd kuwoSong) = mkFallbackRecord cfgStd song ∧
      (mkFallbackRecord cfgStd kuwoSong).music_url =
        .str (cfgStd.baseUrl ++ "/fallback-stream?id=" ++ jsToStringOpt (jget song "rid")) ∧
      (mkFallbackRecord cfgStd kuwoSong).lyric =
        .str (cfgStd.baseUrl ++ "/fallback-lyric?id=" ++ jsToStringOpt (jget song "rid")) ∧
      (mkFallbackRecord cfgStd kuwoSong).cover = jsOrJ (jget song "pic") (.str "")) :=
  ⟨songRecord_asset_urls.1 cfgStd "k" "kuwo" tunehubOkEnv
      (mkTuneHubRecord cfgStd "kuwo" (Json.str "12345") tunehubSong) rfl,
   songRecord_asset_urls.2 cfgStd "k" kuwoOkEnv (mkFallbackRecord cfgStd kuwoSong) rfl⟩

/-! ## C8: the template substitution -/

/-- Counterexample to C8 as stated: on the parameter value `{{a}}x{{page}}`
the claim predicts that `{{a}}` resolves to the empty string and `{{page}}`
to `0`, giving `x0`; but the lazy pattern `\{\{.*?page.*?\}\}` matches across
the placeholder boundary and swallows the whole value, giving `0`. -/
theorem substituteParams_cex :
    substituteParams "X" "{{a}}x{{page}}" = "0" ∧ ("0" : String) ≠ "x0" :=
  ⟨rfl, by decide⟩

theorem char_ne_of_lc_ne {x y : Char} (hy : lc y = y) (h : lc x ≠ y) : x ≠ y := by
  intro he
  subst he
  exact h hy

theorem replGo_id (tryM : List Char → Option Nat) (repl : List Char) (s : List Char) :
    ∀ (fuel : Nat) (b : List Char), (∀ n, tryM (s.drop n) = none) →
      replGo tryM repl fuel b s = s := by
  induction s with
  | nil => intro fuel b _; cases fuel <;> rfl
  | cons c rest ih =>
    intro fuel b H
    cases fuel with
    | zero => rfl
    | succ f =>
      have h0 := H 0
      simp only [List.drop_zero] at h0
      simp only [replGo, h0]
      rw [ih f (c :: b) (fun n => by simpa using H (n + 1))]

theorem replGo_full (tryM : List Char → Option Nat) (repl : List Char) (fuel : Nat)
    (b : List Char) (c : Char) (rest : List Char)
    (h : tryM (c :: rest) = some (c :: rest).length) :
    replGo tryM repl (fuel + 1) b (c :: rest) =
      expandDollar (c :: rest) b.reverse [] repl := by
  simp only [replGo, h, List.take_length, List.drop_length]
  cases fuel <;> simp [replGo]

theorem expandDollar_plain (m b a : List Char) :
    ∀ repl, (∀ c ∈ repl, c ≠ '$') → expandDollar m b a repl = repl := by
  intro repl
  induction repl with
  | nil => intro _; rfl
  | cons c t ih =>
    intro h
    cases t with
    | nil => rfl
    | cons d t2 =>
      have hc : c ≠ '$' := h c (by simp)
      simp only [expandDollar, if_neg hc]
      rw [ih (fun x hx => h x (by simp [hx]))]

theorem ciPrefixB_length : ∀ (p s : List Char), ciPrefixB p s = true → p.length ≤ s.length := by
  intro p
  induction p with
  | nil => intro s _; simp
  | cons a ps ih =>
    intro s h
    cases s with
    | nil => simp [ciPrefixB] at h
    | cons c cs =>
      simp only [ciPrefixB, Bool.and_eq_true] at h
      have := ih cs h.2
      simp only [List.length_cons]
      omega

theorem ciPrefixB_extend : ∀ (p xs ys : List Char), ciPrefixB p xs = true →
    ciPrefixB p (xs ++ ys) = true := by
  intro p
  induction p with
  | nil => intro xs ys _; rfl
  | cons a ps ih =>
    intro xs ys h
    cases xs with
    | nil => simp [ciPrefixB] at h
    | cons c cs =>
      simp only [ciPrefixB, Bool.and_eq_true] at h ⊢
      exact ⟨h.1, ih cs ys h.2⟩

theorem ciPrefixB_append_rb2_elim : ∀ (p xs : List Char), (∀ c ∈ p, lc c ≠ '}') →
    ciPrefixB p (xs ++ ['}', '}']) = true → ciPrefixB p xs = true := by
  intro p
  induction p with
  | nil => intro xs _ _; rfl
  | cons a ps ih =>
    intro xs hp h
    cases xs with
    | nil =>
      simp only [List.nil_append, ciPrefixB, Bool.and_eq_true] at h
      have ha : lc a ≠ '}' := hp a (by simp)
      have : lc '}' = '}' := by decide
      rw [this] at h
      exact absurd (by simpa using h.1) ha
    | cons c cs =>
      simp only [List.cons_append, ciPrefixB, Bool.and_eq_true] at h ⊢
      exact ⟨h.1, ih cs (fun x hx => hp x (by simp [hx])) h.2⟩

theorem ciPrefixB_braces : ∀ (w nm : List Char), (∀ c ∈ w, lc c ≠ '}') →
    (∀ c ∈ nm, lc c ≠ '}') →
    (ciPrefixB (w ++ ['}', '}']) (nm ++ ['}', '}']) = true ↔ lcList nm = lcList w) := by
  intro w
  induction w with
  | nil =>
    intro nm _ hn
    cases nm with
    | nil => simp [ciPrefixB, lcList]
    | cons c cs =>
      have hc : lc c ≠ '}' := hn c (by simp)
      have hz : lc '}' = '}' := by decide
      simp only [List.nil_append, List.cons_append, ciPrefixB, Bool.and_eq_true, lcList,
        beq_iff_eq, hz, List.map_cons]
      constructor
      · intro h
        exact absurd h.1.symm hc
      · intro h; simp at h
  | cons a ws ih =>
    intro nm hw hn
    cases nm with
    | nil =>
      have ha : lc a ≠ '}' := hw a (by simp)
      have hz : lc '}' = '}' := by decide
      simp only [List.nil_append, List.cons_append, ciPrefixB, Bool.and_eq_true, lcList,
        beq_iff_eq, hz, List.map_cons]
      constructor
      · intro h
        exact absurd h.1 ha
      · intro h; simp at h
    | cons c cs =>
      have hrec := ih cs (fun x hx => hw x (by simp [hx])) (fun x hx => hn x (by simp [hx]))
      simp only [List.cons_append, ciPrefixB, Bool.and_eq_true, lcList, List.map_cons,
        List.cons.injEq, beq_iff_eq] at hrec ⊢
      constructor
      · intro h
        exact ⟨h.1.symm, hrec.mp h.2⟩
      · intro h
        exact ⟨h.1.symm, hrec.mpr h.2⟩

theorem litTry_none_head (h : Char) (t : List Char) (hh : lc h ≠ '{') :
    litTry "{{keyword}}".data (h :: t) = none := by
  have hz : lc '{' = '{' := by decide
  have : ('{' == lc h) = false := by
    simp only [beq_eq_false_iff_ne]
    exact fun he => hh he.symm
  simp [litTry, ciPrefixB, hz, this]

theorem litTry_none_snd (x : Char) (t : List Char) (hx : lc x ≠ '{') :
    litTry "{{keyword}}".data ('{' :: x :: t) = none := by
  have hz : lc '{' = '{' := by decide
  have : ('{' == lc x) = false := by
    simp only [beq_eq_false_iff_ne]
    exact fun he => hx he.symm
  simp [litTry, ciPrefixB, hz, this]

theorem lazyTry_none_head0 (mid : List Char) (h : Char) (hh : h ≠ '{') :
    lazyTry mid [h] = none := by
  unfold lazyTry
  split
  · rename_i t2 heq
    exact absurd (by injection heq) hh
  · rfl

theorem lazyTry_none_short (mid : List Char) :
    lazyTry mid [] = none ∧ ∀ h : Char, lazyTry mid [h] = none := by
  constructor
  · rfl
  · intro h
    by_cases hh : h = '{'
    · subst hh; rfl
    · exact lazyTry_none_head0 mid h hh

theorem lazyTry_none_head (mid : List Char) (h : Char) (t : List Char) (hh : h ≠ '{') :
    lazyTry mid (h :: t) = none := by
  unfold lazyTry
  split
  · rename_i t2 heq
    exact absurd (by injection heq) hh
  · rfl

theorem lazyTry_none_snd (mid : List Char) (x : Char) (t : List Char) (hx : x ≠ '{') :
    lazyTry mid ('{' :: x :: t) = none := by
  unfold lazyTry
  split
  · rename_i t2 heq
    injection heq with h1 h2
    exact absurd (by injection h2) hx
  · rfl

theorem noMatch_from (tryM : List Char → Option Nat) (name : List Char)
    (hn : ∀ c ∈ name, simpleChar c)
    (hnil : tryM [] = none)
    (hhead : ∀ h t, lc h ≠ '{' → tryM (h :: t) = none)
    (hsnd : ∀ x t, lc x ≠ '{' → tryM ('{' :: x :: t) = none)
    (h0 : tryM ('{' :: '{' :: (name ++ ['}', '}'])) = none) :
    ∀ n, tryM (('{' :: '{' :: (name ++ ['}', '}'])).drop n) = none := by
  intro n
  match n with
  | 0 => exact h0
  | 1 =>
    simp only [List.drop_succ_cons, List.drop_zero]
    cases name with
    | nil => exact hsnd '}' ['}'] (by decide)
    | cons c cs => exact hsnd c (cs ++ ['}', '}']) (hn c (by simp)).1
  | n + 2 =>
    simp only [List.drop_succ_cons]
    cases hu : (name ++ ['}', '}']).drop n with
    | nil => exact hnil
    | cons x t =>
      have hx : x ∈ name ++ ['}', '}'] := List.mem_of_mem_drop (by rw [hu]; simp)
      have hlc : lc x ≠ '{' := by
        rcases List.mem_append.mp hx with hxm | hxm
        · exact (hn x hxm).1
        · have : x = '}' := by simpa using hxm
          subst this
          decide
      exact hhead x t hlc

theorem findSub_tail_rb2 : ∀ (post : List Char), (∀ c ∈ post, simpleChar c) →
    findSub ['}', '}'] (post ++ ['}', '}']) = some post.length := by
  intro post
  induction post with
  | nil => intro _; rfl
  | cons c cs ih =>
    intro hp
    have hc : lc c ≠ '}' := (hp c (by simp)).2.1
    have hb : ciPrefixB ['}', '}'] (c :: (cs ++ ['}', '}'])) = false := by
      have hz : lc '}' = '}' := by decide
      have : ('}' == lc c) = false := by
        simp only [beq_eq_false_iff_ne]
        exact fun he => hc he.symm
      simp [ciPrefixB, hz, this]
    have hnl : c ≠ '\n' := (hp c (by simp)).2.2
    simp only [List.cons_append, findSub, List.append_eq]
    rw [hb]
    simp only [Bool.false_eq_true, if_false, if_neg hnl]
    rw [ih (fun x hx => hp x (by simp [hx]))]
    rfl

theorem findSub_rb2_startFalse (m : Char) (ms : List Char) (hm : lc m ≠ '}') :
    ∀ t, ciPrefixB (m :: ms) ('}' :: t) = false := by
  intro t
  have hz : lc '}' = '}' := by decide
  have : (lc m == '}') = false := by
    simp only [beq_eq_false_iff_ne]
    exact hm
  simp [ciPrefixB, hz, this]

theorem findSub_append_none : ∀ (nm : List Char) (m : Char) (ms : List Char),
    (∀ c ∈ m :: ms, lc c ≠ '}') → (∀ c ∈ nm, simpleChar c) →
    hasCIB (m :: ms) nm = false →
    findSub (m :: ms) (nm ++ ['}', '}']) = none := by
  intro nm
  induction nm with
  | nil =>
    intro m ms hmid _ _
    have h1 := findSub_rb2_startFalse m ms (hmid m (by simp))
    simp only [List.nil_append, findSub, List.append_eq, h1, Bool.false_eq_true, if_false]
    have hn1 : ('}' : Char) ≠ '\n' := by decide
    simp only [if_neg hn1, findSub, h1, Bool.false_eq_true, if_false]
    simp [ciPrefixB, findSub]
  | cons c cs ih =>
    intro m ms hmid hn hhas
    simp only [hasCIB, Bool.or_eq_false_iff] at hhas
    have hpre : ciPrefixB (m :: ms) (c :: (cs ++ ['}', '}'])) = false := by
      by_cases hp : ciPrefixB (m :: ms) (c :: (cs ++ ['}', '}'])) = true
      · have := ciPrefixB_append_rb2_elim (m :: ms) (c :: cs) hmid (by simpa using hp)
        rw [this] at hhas
        simp at hhas
      · simpa using hp
    have hnl : c ≠ '\n' := (hn c (by simp)).2.2
    simp only [List.cons_append, findSub, List.append_eq]
    rw [hpre]
    simp only [Bool.false_eq_true, if_false, if_neg hnl]
    rw [ih m ms hmid (fun x hx => hn x (by simp [hx])) hhas.2]
    rfl

theorem findSub_append_some : ∀ (nm : List Char) (m : Char) (ms : List Char),
    (∀ c ∈ m :: ms, lc c ≠ '}') → (∀ c ∈ nm, simpleChar c) →
    hasCIB (m :: ms) nm = true →
    ∃ q, findSub (m :: ms) (nm ++ ['}', '}']) = some q ∧
      q + (m :: ms).length ≤ nm.length := by
  intro nm
  induction nm with
  | nil =>
    intro m ms _ _ hhas
    simp [hasCIB, ciPrefixB] at hhas
  | cons c cs ih =>
    intro m ms hmid hn hhas
    by_cases hp : ciPrefixB (m :: ms) (c :: (cs ++ ['}', '}'])) = true
    · refine ⟨0, ?_, ?_⟩
      · simp only [List.cons_append, findSub, List.append_eq]
        rw [show ciPrefixB (m :: ms) (c :: (cs ++ ['}', '}'])) = true from hp]
        rfl
      · have h1 := ciPrefixB_append_rb2_elim (m :: ms) (c :: cs) hmid (by simpa using hp)
        have := ciPrefixB_length (m :: ms) (c :: cs) h1
        simpa using this
    · have hhas2 : hasCIB (m :: ms) cs = true := by
        simp only [hasCIB, Bool.or_eq_true] at hhas
        rcases hhas with h | h
        · exact absurd (ciPrefixB_extend (m :: ms) (c :: cs) ['}', '}'] h) (by simpa using hp)
        · exact h
      obtain ⟨q, hq, hb⟩ := ih m ms hmid (fun x hx => hn x (by simp [hx])) hhas2
      have hnl : c ≠ '\n' := (hn c (by simp)).2.2
      refine ⟨q + 1, ?_, ?_⟩
      · simp only [List.cons_append, findSub, List.append_eq]
        rw [show ciPrefixB (m :: ms) (c :: (cs ++ ['}', '}'])) = false from by simpa using hp]
        simp only [Bool.false_eq_true, if_false, if_neg hnl]
        rw [hq]
        rfl
      · simp only [List.length_cons] at hb ⊢
        omega

theorem lazyTry_braces_full (m : Char) (ms nm : List Char)
    (hmid : ∀ c ∈ m :: ms, lc c ≠ '}') (hn : ∀ c ∈ nm, simpleChar c)
    (hhas : hasCIB (m :: ms) nm = true) :
    lazyTry (m :: ms) (braceWrap nm) = some (nm.length + 4) := by
  obtain ⟨q, hq, hb⟩ := findSub_append_some nm m ms hmid hn hhas
  simp only [braceWrap, lazyTry]
  rw [hq]
  simp only []
  simp only [List.length_cons] at hb
  rw [List.drop_append_of_le_length (show q + (m :: ms).length ≤ nm.length from by
    simp only [List.length_cons]; omega)]
  rw [findSub_tail_rb2 (nm.drop (q + (m :: ms).length))
    (fun x hx => hn x (List.mem_of_mem_drop hx))]
  simp only [List.length_drop, List.length_cons]
  congr 1
  omega

theorem lazyTry_braces_none (m : Char) (ms nm : List Char)
    (hmid : ∀ c ∈ m :: ms, lc c ≠ '}') (hn : ∀ c ∈ nm, simpleChar c)
    (hhas : hasCIB (m :: ms) nm = false) :
    lazyTry (m :: ms) (braceWrap nm) = none := by
  simp only [braceWrap, lazyTry]
  rw [findSub_append_none nm m ms hmid hn hhas]

theorem lazyTry_empty_full (nm : List Char) (hn : ∀ c ∈ nm, simpleChar c) :
    lazyTry ([] : List Char) (braceWrap nm) = some (nm.length + 4) := by
  simp only [braceWrap, lazyTry]
  have h0 : findSub ([] : List Char) (nm ++ ['}', '}']) = some 0 := by
    cases nm <;> simp [findSub, ciPrefixB]
  rw [h0]
  simp only []
  simp only [List.length_nil, Nat.add_zero, List.drop_zero]
  rw [findSub_tail_rb2 nm hn]
  simp only [List.length_nil, Option.some.injEq]
  omega

theorem braceWrap_length (nm : List Char) : (braceWrap nm).length = nm.length + 4 := by
  simp [braceWrap]

theorem jsReplace_id (tryM : List Char → Option Nat) (repl : String) (s : String)
    (H : ∀ n, tryM (s.data.drop n) = none) : jsReplace tryM repl s = s := by
  unfold jsReplace
  rw [replGo_id tryM repl.data s.data (s.data.length + 1) [] H]

theorem jsReplace_full (tryM : List Char → Option Nat) (repl : String) (c : Char)
    (rest : List Char) (h : tryM (c :: rest) = some (c :: rest).length) :
    jsReplace tryM repl (String.mk (c :: rest)) =
      String.mk (expandDollar (c :: rest) [] [] repl.data) := by
  unfold jsReplace
  rw [show (String.mk (c :: rest)).data = c :: rest from rfl]
  rw [show (c :: rest).length + 1 = rest.length + 1 + 1 from by simp]
  rw [replGo_full tryM repl.data (rest.length + 1) [] c rest h]
  rfl

theorem lazyTry_none_all (mid : List Char) (s : List Char) (hs : ∀ c ∈ s, lc c ≠ '{') :
    ∀ n, lazyTry mid (s.drop n) = none := by
  intro n
  cases hu : s.drop n with
  | nil => rfl
  | cons x t =>
    have hx : x ∈ s := List.mem_of_mem_drop (by rw [hu]; simp)
    exact lazyTry_none_head mid x t (char_ne_of_lc_ne (by decide) (hs x hx))

theorem jsReplace_lazy_id (mid : List Char) (repl : String) (s : String)
    (hs : ∀ c ∈ s.data, lc c ≠ '{') : jsReplace (lazyTry mid) repl s = s :=
  jsReplace_id (lazyTry mid) repl s (lazyTry_none_all mid s.data hs)

theorem jsReplace_lazy_braces_full (m : Char) (ms : List Char) (repl : String)
    (nm : List Char) (hmid : ∀ c ∈ m :: ms, lc c ≠ '}') (hn : ∀ c ∈ nm, simpleChar c)
    (hhas : hasCIB (m :: ms) nm = true) (hrepl : ∀ c ∈ repl.data, c ≠ '$') :
    jsReplace (lazyTry (m :: ms)) repl (String.mk (braceWrap nm)) = repl := by
  have hfull : lazyTry (m :: ms) ('{' :: '{' :: (nm ++ ['}', '}'])) =
      some ('{' :: '{' :: (nm ++ ['}', '}'])).length := by
    have := lazyTry_braces_full m ms nm hmid hn hhas
    simp only [braceWrap] at this
    rw [this]
    simp only [Option.some.injEq, List.length_cons, List.length_append, List.length_nil]
  rw [show braceWrap nm = '{' :: '{' :: (nm ++ ['}', '}']) from rfl]
  rw [jsReplace_full (lazyTry (m :: ms)) repl '{' ('{' :: (nm ++ ['}', '}'])) hfull]
  rw [expandDollar_plain _ _ _ repl.data hrepl]

theorem jsReplace_lazy_braces_none (m : Char) (ms : List Char) (repl : String)
    (nm : List Char) (hmid : ∀ c ∈ m :: ms, lc c ≠ '}') (hn : ∀ c ∈ nm, simpleChar c)
    (hhas : hasCIB (m :: ms) nm = false) :
    jsReplace (lazyTry (m :: ms)) repl (String.mk (braceWrap nm)) = String.mk (braceWrap nm) := by
  apply jsReplace_id
  rw [show (String.mk (braceWrap nm)).data = braceWrap nm from rfl]
  have h0 : lazyTry (m :: ms) (braceWrap nm) = none := lazyTry_braces_none m ms nm hmid hn hhas
  simp only [braceWrap] at h0 ⊢
  exact noMatch_from (lazyTry (m :: ms)) nm hn rfl
    (fun h t hh => lazyTry_none_head (m :: ms) h t (char_ne_of_lc_ne (by decide) hh))
    (fun x t hx => lazyTry_none_snd (m :: ms) x t (char_ne_of_lc_ne (by decide) hx))
    h0

theorem jsReplace_lazy_empty_full (repl : String) (nm : List Char)
    (hn : ∀ c ∈ nm, simpleChar c) (hrepl : ∀ c ∈ repl.data, c ≠ '$') :
    jsReplace (lazyTry []) repl (String.mk (braceWrap nm)) = repl := by
  have hfull : lazyTry ([] : List Char) ('{' :: '{' :: (nm ++ ['}', '}'])) =
      some ('{' :: '{' :: (nm ++ ['}', '}'])).length := by
    have := lazyTry_empty_full nm hn
    simp only [braceWrap] at this
    rw [this]
    simp only [Option.some.injEq, List.length_cons, List.length_append, List.length_nil]
  rw [show braceWrap nm = '{' :: '{' :: (nm ++ ['}', '}']) from rfl]
  rw [jsReplace_full (lazyTry []) repl '{' ('{' :: (nm ++ ['}', '}'])) hfull]
  rw [expandDollar_plain _ _ _ repl.data hrepl]

theorem ciPrefixB_kwPat_braceWrap (name : List Char) (hn : ∀ c ∈ name, simpleChar c) :
    (ciPrefixB "{{keyword}}".data (braceWrap name) = true ↔ lcList name = "keyword".data) := by
  have hb := ciPrefixB_braces "keyword".data name (by decide) (fun c hc => (hn c hc).2.1)
  have hkl : lcList "keyword".data = "keyword".data := by decide
  rw [hkl] at hb
  show ciPrefixB ('{' :: '{' :: ("keyword".data ++ ['}', '}']))
      ('{' :: '{' :: (name ++ ['}', '}'])) = true ↔ _
  simp only [ciPrefixB, Bool.and_eq_true]
  constructor
  · intro h
    exact hb.mp h.2.2
  · intro h
    exact ⟨by decide, by decide, hb.mpr h⟩

theorem jsReplace_keyword_full (name kw : List Char) (hn : ∀ c ∈ name, simpleChar c)
    (hk : ∀ c ∈ kw, plainKwChar c) (hkey : lcList name = "keyword".data) :
    jsReplace (litTry "{{keyword}}".data) (String.mk kw) (String.mk (braceWrap name)) =
      String.mk kw := by
  have hlen : name.length = 7 := by
    have := congrArg List.length hkey
    simpa [lcList] using this
  have hci := (ciPrefixB_kwPat_braceWrap name hn).mpr hkey
  have hfull : litTry "{{keyword}}".data ('{' :: '{' :: (name ++ ['}', '}'])) =
      some ('{' :: '{' :: (name ++ ['}', '}'])).length := by
    have h1 : litTry "{{keyword}}".data (braceWrap name) =
        some ("{{keyword}}".data.length) := by
      simp [litTry, hci]
    simp only [braceWrap] at h1
    rw [h1]
    simp only [Option.some.injEq, List.length_cons, List.length_append, List.length_nil]
    rw [hlen]
  rw [show braceWrap name = '{' :: '{' :: (name ++ ['}', '}']) from rfl]
  rw [jsReplace_full (litTry "{{keyword}}".data) (String.mk kw) '{'
    ('{' :: (name ++ ['}', '}'])) hfull]
  rw [expandDollar_plain _ _ _ (String.mk kw).data (fun c hc => (hk c hc).2.2)]

theorem jsReplace_keyword_id (name : List Char) (kw : String)
    (hn : ∀ c ∈ name, simpleChar c) (hkey : ¬ lcList name = "keyword".data) :
    jsReplace (litTry "{{keyword}}".data) kw (String.mk (braceWrap name)) =
      String.mk (braceWrap name) := by
  apply jsReplace_id
  have h0 : litTry "{{keyword}}".data (braceWrap name) = none := by
    have hc0 : ciPrefixB "{{keyword}}".data (braceWrap name) = false := by
      by_cases hc : ciPrefixB "{{keyword}}".data (braceWrap name) = true
      · exact absurd ((ciPrefixB_kwPat_braceWrap name hn).mp hc) hkey
      · simpa using hc
    simp [litTry, hc0]
  show ∀ n, litTry "{{keyword}}".data ((braceWrap name).drop n) = none
  simp only [braceWrap] at h0 ⊢
  exact noMatch_from (litTry "{{keyword}}".data) name hn rfl
    (fun h t hh => litTry_none_head h t hh)
    (fun x t hx => litTry_none_snd x t hx)
    h0

/-- Claim C8 (amended): on a single placeholder `\x7b\x7bname\x7d\x7d` (name
free of braces and newlines) with a keyword free of braces and `$`, the
substitution is the claimed pure per-placeholder function: `keyword`
(case-insensitively) becomes the keyword, a name containing `page` becomes
`0`, a name containing `limit` (and not `page`, which is tried first) becomes
`10`, and any other name becomes the empty string.  As stated over whole
parameter strings the claim is false: the lazy patterns can span adjacent
placeholders (see the counterexample), so the per-placeholder reading only
holds for placeholders taken in isolation. -/
theorem substituteParams_placeholder (name kw : List Char)
    (hn : ∀ c ∈ name, simpleChar c) (hk : ∀ c ∈ kw, plainKwChar c) :
    substituteParams (String.mk kw) (String.mk (braceWrap name)) =
      (if lcList name = "keyword".data then String.mk kw
       else if hasCIB "page".data name = true then "0"
       else if hasCIB "limit".data name = true then "10"
       else "") := by
  have hkw_nob : ∀ c ∈ (String.mk kw).data, lc c ≠ '{' := fun c hc => (hk c hc).1
  by_cases hkey : lcList name = "keyword".data
  · rw [if_pos hkey]
    unfold substituteParams
    simp only []
    rw [jsReplace_keyword_full name kw hn hk hkey]
    rw [jsReplace_lazy_id "page".data "0" (String.mk kw) hkw_nob]
    rw [jsReplace_lazy_id "limit".data "10" (String.mk kw) hkw_nob]
    rw [jsReplace_lazy_id [] "" (String.mk kw) hkw_nob]
  · rw [if_neg hkey]
    unfold substituteParams
    simp only []
    rw [jsReplace_keyword_id name (String.mk kw) hn hkey]
    by_cases hpage : hasCIB "page".data name = true
    · rw [if_pos hpage]
      rw [jsReplace_lazy_braces_full 'p' ['a', 'g', 'e'] "0" name (by decide) hn hpage
        (by decide)]
      rw [jsReplace_lazy_id ('l' :: ['i', 'm', 'i', 't']) "10" "0" (by decide)]
      rw [jsReplace_lazy_id [] "" "0" (by decide)]
    · rw [if_neg hpage]
      rw [jsReplace_lazy_braces_none 'p' ['a', 'g', 'e'] "0" name (by decide) hn
        (by simpa using hpage)]
      by_cases hlimit : hasCIB "limit".data name = true
      · rw [if_pos hlimit]
        rw [jsReplace_lazy_braces_full 'l' ['i', 'm', 'i', 't'] "10" name (by decide) hn
          hlimit (by decide)]
        rw [jsReplace_lazy_id [] "" "10" (by decide)]
      · rw [if_neg hlimit]
        rw [jsReplace_lazy_braces_none 'l' ['i', 'm', 'i', 't'] "10" name (by decide) hn
          (by simpa using hlimit)]
        rw [jsReplace_lazy_empty_full "" name hn (by decide)]

/-- Witness for the amended C8 at a concrete placeholder and keyword. -/
theorem substituteParams_placeholder_witness :
    substituteParams (String.mk "晴天".data) (String.mk (braceWrap "curPage".data)) =
      (if lcList "curPage".data = "keyword".data then String.mk "晴天".data
       else if hasCIB "page".data "curPage".data = true then "0"
       else if hasCIB "limit".data "curPage".data = true then "10"
       else "") :=
  substituteParams_placeholder "curPage".data "晴天".data (by decide) (by decide)

end HBMusic
